import Mathlib

/-!
Verification development for the diagnostic match-resolution engine of the
dxgpt-bench-lab repository.

The definitions below are a shallow embedding of two Python sources:

* `bench/pipelines/pipeline_v4 - fork/main/evaluator.py` (the `DiagnosticEvaluator`
  cascade: SNOMED family, ICD-10 family, semantic/BERT family with LLM judge), and
* `bench/pipelines/summarization_feat (delete)/run.py` (the `SemanticEvaluator`,
  `SeverityEvaluator` and `TopKMetrics` modules).

Modelling conventions, used throughout:

* Python floats are modelled as rationals (`ℚ`); all decisions in the source are
  order comparisons and arithmetic, faithfully mirrored on `ℚ`.
* External services (the ICD-10 taxonomy, the BERT similarity endpoint, the LLM
  judge) are modelled as total function parameters ("oracles").  A failed or
  unparseable LLM call is modelled by the oracle returning `none`.
* The evaluator communicates positions and methods through human-readable
  `details` strings and recovers them with regexes / substring tests
  (`_extract_position_from_details`, `_extract_method_from_semantic_details`, ...).
  In the source the position marker `P<n>` always precedes any code text in the
  details string, and the substring keys (`"autoconfirm"`, `"BERT result"`,
  `"LLM choice"`, `"LLM selected"`) are in bijection with the branches that build
  the strings, so the round-trip is lossless.  The embedding therefore represents
  each distinct details string by a distinct constructor carrying the extracted
  fields, and the extraction helpers become total pattern matches.
-/

namespace DxBench

/-- The four code systems attached to a diagnosis
(`medical_codes` in both Python sources). -/
structure MedicalCodes where
  snomed : List String
  icd10 : List String
  omim : List String
  orpha : List String
deriving DecidableEq

/-- A diagnosis entry (used for both GDX and DDX).  In the source a DDX entry is a
pair `(ddx_name, ddx_info)` where `ddx_info` optionally carries `normalized_text`
and `medical_codes`; the pair is flattened into one record here. -/
structure Dx where
  name : String
  normalizedText : Option String
  codes : MedicalCodes
deriving DecidableEq

/-- Text used for semantic comparison: `info.get("normalized_text", name)`. -/
def textOf (d : Dx) : String := d.normalizedText.getD d.name

/-- Evaluator configuration (the `EVALUATOR` section of the config, with the
defaults from `DiagnosticEvaluator.__init__`). -/
structure Config where
  bertAcceptanceThreshold : ℚ
  bertAutoconfirmThreshold : ℚ
  enableIcd10ParentSearch : Bool
  enableIcd10SiblingSearch : Bool
deriving DecidableEq

/-- The default configuration values from `DiagnosticEvaluator.__init__`:
acceptance `0.80`, autoconfirm `0.90`, both hierarchy searches enabled. -/
def defaultConfig : Config := ⟨4/5, 9/10, true, true⟩

/-- The ICD-10 taxonomy oracle consumed by `_is_child_code`, `_is_parent_code`
and `_is_sibling_code` in `evaluator.py` (an external read-only service). -/
structure Icd10Taxonomy where
  childrenOf : String → List String
  parentsOf : String → List String
  siblingsOf : String → List String

/-- Mirrors `_is_child_code(parent_code, child_code)`:
`child_code in self.icd10_taxonomy.children(parent_code)`. -/
def isChildCode (tax : Icd10Taxonomy) (parentCode childCode : String) : Bool :=
  (tax.childrenOf parentCode).contains childCode

/-- Mirrors `_is_parent_code(child_code, parent_code)`:
`parent_code in self.icd10_taxonomy.parents(child_code)`. -/
def isParentCode (tax : Icd10Taxonomy) (childCode parentCode : String) : Bool :=
  (tax.parentsOf childCode).contains parentCode

/-- Mirrors `_is_sibling_code(code1, code2)`:
`code2 in self.icd10_taxonomy.siblings(code1)`. -/
def isSiblingCode (tax : Icd10Taxonomy) (code1 code2 : String) : Bool :=
  (tax.siblingsOf code1).contains code2

/-- Outcome of `_evaluate_snomed_match`.  `success pos code` stands for the
details string `"SUCCESS: Found match with DDX at P{pos} (code: {code})"`. -/
inductive SnomedCheck where
  | skipped
  | failed
  | success (pos : Nat) (code : String)
deriving DecidableEq

/-- The four ICD-10 sub-strategies of `_evaluate_icd10_match`, in source order. -/
inductive Icd10Strategy where
  | exact
  | child
  | parent
  | sibling
deriving DecidableEq

/-- Outcome of `_evaluate_icd10_match`.  `success strat pos code` stands for the
details string `"SUCCESS: Found ICD10_<STRAT> match with DDX at P{pos} ..."`
built from GDX code `code`. -/
inductive Icd10Check where
  | skipped
  | failed
  | success (strat : Icd10Strategy) (pos : Nat) (code : String)
deriving DecidableEq

/-- Outcome of `_evaluate_semantic_match`.  Each constructor corresponds to one
of the distinct details strings produced by the source, carrying exactly the
fields that `_extract_position_from_semantic_details` and
`_extract_method_from_semantic_details` later read back:

* `autoconfirm scores best` — `"BERT score ... >= autoconfirm threshold ..."`
  (SUCCESS; `best` is the `bert_best` dict, `none` when no positive score was seen);
* `bertOverJudge scores best judgePos` — `"BERT result at P... was better ..."`
  (SUCCESS, method BERT_MATCH);
* `judgeOverBert scores best judgePos` — `"LLM choice P... was better ..."`
  (SUCCESS, method LLM_JUDGMENT);
* `judgeRescue scores best judgePos` — `"LLM selected P... below acceptance ..."`
  (SUCCESS, method LLM_JUDGMENT);
* `noMatch scores best` — `"Both BERT ... and LLM found no acceptable matches."`
  (FAILED; the recorded `llm_judgment` is `{"position": None}`);
* `evalError` — `"Semantic evaluation error: ..."` (FAILED), produced by the
  `except` handler.  In this embedding the oracles are total, so the only
  reachable error is the Python `TypeError` raised by `best_bert_position <=
  llm_result["position"]` when `best_bert_position` is `None` (possible only if
  the acceptance threshold is not positive).
-/
inductive SemanticCheck where
  | skipped
  | autoconfirm (scores : List (Nat × ℚ)) (best : Option (Nat × ℚ))
  | bertOverJudge (scores : List (Nat × ℚ)) (best : Nat × ℚ) (judgePos : Nat)
  | judgeOverBert (scores : List (Nat × ℚ)) (best : Nat × ℚ) (judgePos : Nat)
  | judgeRescue (scores : List (Nat × ℚ)) (best : Option (Nat × ℚ)) (judgePos : Nat)
  | noMatch (scores : List (Nat × ℚ)) (best : Option (Nat × ℚ))
  | evalError
deriving DecidableEq

/-- Status field of a check, as recorded in the trace JSON. -/
inductive CheckStatus where
  | skipped
  | success
  | failed
deriving DecidableEq

def SnomedCheck.status : SnomedCheck → CheckStatus
  | .skipped => .skipped
  | .failed => .failed
  | .success _ _ => .success

def Icd10Check.status : Icd10Check → CheckStatus
  | .skipped => .skipped
  | .failed => .failed
  | .success _ _ _ => .success

def SemanticCheck.status : SemanticCheck → CheckStatus
  | .skipped => .skipped
  | .autoconfirm _ _ => .success
  | .bertOverJudge _ _ _ => .success
  | .judgeOverBert _ _ _ => .success
  | .judgeRescue _ _ _ => .success
  | .noMatch _ _ => .failed
  | .evalError => .failed

/-- Inner loop of `_evaluate_snomed_match`: scan DDX positions (1-based, in list
order); at each position the GDX codes are tried in order and the first GDX code
contained in the DDX code list wins. -/
def snomedScan (gdxCodes : List String) : Nat → List Dx → Option (Nat × String)
  | _, [] => none
  | i, d :: rest =>
    match gdxCodes.find? (fun c => d.codes.snomed.contains c) with
    | some c => some (i, c)
    | none => snomedScan gdxCodes (i + 1) rest

/-- Mirrors `_evaluate_snomed_match`: SKIPPED when the GDX has no SNOMED codes,
else the first position whose DDX shares a SNOMED code, else FAILED. -/
def evaluateSnomedMatch (gdx : Dx) (ddxList : List Dx) : SnomedCheck :=
  if gdx.codes.snomed.isEmpty then .skipped
  else
    match snomedScan gdx.codes.snomed 1 ddxList with
    | some (p, c) => .success p c
    | none => .failed

/-- One left-to-right scan over DDX positions (1-based) returning the first
position whose entry satisfies the predicate; the shape shared by all four
sub-strategy loops of `_evaluate_icd10_match`. -/
def scanPositions (p : Dx → Bool) : Nat → List Dx → Option Nat
  | _, [] => none
  | i, d :: rest => if p d then some i else scanPositions p (i + 1) rest

/-- Body of the outer `for gdx_code in gdx_icd10_codes` loop of
`_evaluate_icd10_match`: for one GDX code, try EXACT, then CHILD, then PARENT
(if enabled), then SIBLING (if enabled), each scanning all DDX positions. -/
def icd10CodeSearch (cfg : Config) (tax : Icd10Taxonomy) (gdxCode : String)
    (ddxList : List Dx) : Option (Icd10Strategy × Nat) :=
  match scanPositions (fun d => d.codes.icd10.contains gdxCode) 1 ddxList with
  | some p => some (.exact, p)
  | none =>
    match scanPositions (fun d => d.codes.icd10.any fun c => isChildCode tax gdxCode c) 1 ddxList with
    | some p => some (.child, p)
    | none =>
      match (if cfg.enableIcd10ParentSearch then
          scanPositions (fun d => d.codes.icd10.any fun c => isParentCode tax gdxCode c) 1 ddxList
        else none) with
      | some p => some (.parent, p)
      | none =>
        match (if cfg.enableIcd10SiblingSearch then
            scanPositions (fun d => d.codes.icd10.any fun c => isSiblingCode tax gdxCode c) 1 ddxList
          else none) with
        | some p => some (.sibling, p)
        | none => none

/-- Outer loop of `_evaluate_icd10_match` over GDX ICD-10 codes, in order. -/
def icd10CodesLoop (cfg : Config) (tax : Icd10Taxonomy) (ddxList : List Dx) :
    List String → Option (String × Icd10Strategy × Nat)
  | [] => none
  | c :: rest =>
    match icd10CodeSearch cfg tax c ddxList with
    | some (s, p) => some (c, s, p)
    | none => icd10CodesLoop cfg tax ddxList rest

/-- Mirrors `_evaluate_icd10_match`. -/
def evaluateIcd10Match (cfg : Config) (tax : Icd10Taxonomy) (gdx : Dx)
    (ddxList : List Dx) : Icd10Check :=
  if gdx.codes.icd10.isEmpty then .skipped
  else
    match icd10CodesLoop cfg tax ddxList gdx.codes.icd10 with
    | some (c, s, p) => .success s p c
    | none => .failed

/-- Numbered candidate lines of the judge prompt: mirrors
`ddx_options = "\n".join([f"{i+1}. {text}" for i, text in enumerate(ddx_texts)])`
in `_get_llm_judgment` — every DDX text appears, numbered from 1. -/
def llmCandidates (ddxTexts : List String) : List (Nat × String) :=
  ddxTexts.enum.map fun p => (p.1 + 1, p.2)

/-- Mirrors `_get_llm_judgment`.  The judge oracle receives the GDX text and the
numbered candidate list from the prompt and yields the parsed integer reply, or
`none` when the call failed or `int(response_text)` raised `ValueError`.  The
reply is accepted only when `1 <= position <= 5`; anything else (including `0`)
becomes `{"position": None}`. -/
def getLlmJudgment (judge : String → List (Nat × String) → Option ℤ)
    (gdxText : String) (ddxTexts : List String) : Option Nat :=
  match judge gdxText (llmCandidates ddxTexts) with
  | none => none
  | some n => if 1 ≤ n ∧ n ≤ 5 then some n.toNat else none

/-- BERT score loop of `_evaluate_semantic_match`: walk `ddx_texts` with 1-based
positions; a position with a `None` similarity is omitted from `bert_scores`;
the best score starts at `0.0` and is replaced only on a strictly greater score,
so the earliest position achieving the maximum is kept.  Returns
`(bert_scores, best_bert_score, best_bert_position)`. -/
def bertScanGo (sim : String → String → Option ℚ) (gdxText : String) :
    List String → Nat → List (Nat × ℚ) → ℚ → Option Nat →
    List (Nat × ℚ) × ℚ × Option Nat
  | [], _, acc, best, bp => (acc, best, bp)
  | t :: ts, i, acc, best, bp =>
    match sim gdxText t with
    | none => bertScanGo sim gdxText ts (i + 1) acc best bp
    | some s =>
      if best < s then bertScanGo sim gdxText ts (i + 1) (acc ++ [(i, s)]) s (some i)
      else bertScanGo sim gdxText ts (i + 1) (acc ++ [(i, s)]) best bp

/-- The BERT similarity pass over all DDX texts (initial accumulator state as in
the source: empty score list, best score `0.0`, best position `None`). -/
def bertScan (sim : String → String → Option ℚ) (gdxText : String)
    (ddxTexts : List String) : List (Nat × ℚ) × ℚ × Option Nat :=
  bertScanGo sim gdxText ddxTexts 1 [] 0 none

/-- Mirrors `_evaluate_semantic_match`.  `sim a b` models
`calculate_semantic_similarity(gdx_text, ddx_texts)[a][b]` (with `None` for a
missing entry); `judge` models the LLM call of `_get_llm_judgment`. -/
def evaluateSemanticMatch (cfg : Config) (sim : String → String → Option ℚ)
    (judge : String → List (Nat × String) → Option ℤ) (gdx : Dx)
    (ddxList : List Dx) : SemanticCheck :=
  let gdxText := textOf gdx
  let ddxTexts := ddxList.map textOf
  let r := bertScan sim gdxText ddxTexts
  let scores := r.1
  let best := r.2.1
  let bestPos := r.2.2
  let bertBest : Option (Nat × ℚ) := bestPos.map fun p => (p, best)
  if cfg.bertAutoconfirmThreshold ≤ best then
    .autoconfirm scores bertBest
  else
    match getLlmJudgment judge gdxText ddxTexts with
    | some jp =>
      if cfg.bertAcceptanceThreshold ≤ best then
        match bestPos with
        | some bp =>
          if bp ≤ jp then .bertOverJudge scores (bp, best) jp
          else .judgeOverBert scores (bp, best) jp
        | none => .evalError
      else .judgeRescue scores bertBest jp
    | none => .noMatch scores bertBest

/-- The per-GDX trace (`EvaluationTrace` dataclass). -/
structure EvaluationTrace where
  snomedCheck : SnomedCheck
  icd10Check : Icd10Check
  semanticCheck : SemanticCheck
deriving DecidableEq

/-- Mirrors `_evaluate_single_gdx_with_trace`: SNOMED first; on SUCCESS the
ICD-10 and semantic families are recorded SKIPPED and never run; else ICD-10;
on SUCCESS the semantic family is recorded SKIPPED and never runs; else the
semantic family runs. -/
def evaluateSingleGdxWithTrace (cfg : Config) (tax : Icd10Taxonomy)
    (sim : String → String → Option ℚ)
    (judge : String → List (Nat × String) → Option ℤ)
    (gdx : Dx) (ddxList : List Dx) : EvaluationTrace :=
  let sn := evaluateSnomedMatch gdx ddxList
  match sn with
  | .success p c => ⟨.success p c, .skipped, .skipped⟩
  | _ =>
    let ic := evaluateIcd10Match cfg tax gdx ddxList
    match ic with
    | .success s p c => ⟨sn, .success s p c, .skipped⟩
    | _ => ⟨sn, ic, evaluateSemanticMatch cfg sim judge gdx ddxList⟩

/-- The resolution methods of the cascade (`final_resolution["method"]`). -/
inductive Method where
  | SNOMED_MATCH
  | ICD10_EXACT
  | ICD10_CHILD
  | ICD10_PARENT
  | ICD10_SIBLING
  | BERT_AUTOCONFIRM
  | BERT_MATCH
  | LLM_JUDGMENT
deriving DecidableEq

/-- Mirrors `_extract_method_from_icd10_details`. -/
def icd10Method : Icd10Strategy → Method
  | .exact => .ICD10_EXACT
  | .child => .ICD10_CHILD
  | .parent => .ICD10_PARENT
  | .sibling => .ICD10_SIBLING

/-- Combined `_extract_position_from_semantic_details` and
`_extract_method_from_semantic_details` on a successful semantic check, `none`
on a non-success — the extracted position itself is an `Option` because
`_extract_position_from_semantic_details` returns `None` for an autoconfirm
success whose `bert_best` is `None`. -/
def semanticOutcome : SemanticCheck → Option (Option Nat × Method)
  | .autoconfirm _ b => some (b.map Prod.fst, .BERT_AUTOCONFIRM)
  | .bertOverJudge _ b _ => some (some b.1, .BERT_MATCH)
  | .judgeOverBert _ _ jp => some (some jp, .LLM_JUDGMENT)
  | .judgeRescue _ _ jp => some (some jp, .LLM_JUDGMENT)
  | _ => none

/-- The per-trace part of the `if SUCCESS / elif SUCCESS / elif SUCCESS` chain
of `evaluate_case`, combined with the extraction helpers
(`_extract_position_from_details`, `_extract_method_from_icd10_details` and the
semantic extractors above). -/
def traceOutcome (tr : EvaluationTrace) : Option (Option Nat × Method) :=
  match tr.snomedCheck with
  | .success p _ => some (some p, .SNOMED_MATCH)
  | _ =>
    match tr.icd10Check with
    | .success s p _ => some (some p, icd10Method s)
    | _ => semanticOutcome tr.semanticCheck

/-- Mirrors `_get_ddx_at_position`: the DDX entry at a 1-based position, or the
empty dict (here `none`) when the position is out of range. -/
def getDdxAtPosition (ddxList : List Dx) (pos : Nat) : Option Dx :=
  if 1 ≤ pos ∧ pos ≤ ddxList.length then ddxList.get? (pos - 1) else none

/-- The running best of `evaluate_case` (the `best_position` / `best_method` /
`winning_gdx_idx` / `matched_ddx` variables, bundled). -/
structure BestMatch where
  position : Nat
  method : Method
  gdxIdx : Nat
  gdx : Dx
  matchedDdx : Option Dx
deriving DecidableEq

/-- The GDX loop of `evaluate_case`.  The outer `Option` models an uncaught
Python `TypeError`: when an earlier GDX set a numeric `best_position` and a
later successful GDX has no extractable position (`None`), the source evaluates
`None < best_position` and crashes (`none` here).  A successful GDX with no
extractable position while `best_position` is still `None` leaves
`best_position = None`; the method/value fields it sets are unobservable (they
are overwritten by any later positioned success and ignored by the final
`if best_position is not None` gate), so that state is modelled as the unchanged
accumulator. -/
def evaluateCaseGo (cfg : Config) (tax : Icd10Taxonomy)
    (sim : String → String → Option ℚ)
    (judge : String → List (Nat × String) → Option ℤ) (ddxList : List Dx) :
    Nat → List Dx → Option BestMatch → Option (Option BestMatch)
  | _, [], best => some best
  | i, g :: rest, best =>
    match traceOutcome (evaluateSingleGdxWithTrace cfg tax sim judge g ddxList) with
    | none => evaluateCaseGo cfg tax sim judge ddxList (i + 1) rest best
    | some (posOpt, m) =>
      match best, posOpt with
      | none, none => evaluateCaseGo cfg tax sim judge ddxList (i + 1) rest none
      | none, some p =>
        evaluateCaseGo cfg tax sim judge ddxList (i + 1) rest
          (some ⟨p, m, i, g, getDdxAtPosition ddxList p⟩)
      | some _, none => none
      | some b, some p =>
        evaluateCaseGo cfg tax sim judge ddxList (i + 1) rest
          (some (if p < b.position then ⟨p, m, i, g, getDdxAtPosition ddxList p⟩ else b))

/-- Mirrors `evaluate_case` (the match-resolution part): iterate GDX entries in
declared order with 1-based indices, keep the running best, and return it.  The
final `best_match_found` flag of the source is `(result).isSome` on the inner
option and `final_resolution` is its value. -/
def evaluateCase (cfg : Config) (tax : Icd10Taxonomy)
    (sim : String → String → Option ℚ)
    (judge : String → List (Nat × String) → Option ℤ)
    (gdxList ddxList : List Dx) : Option (Option BestMatch) :=
  evaluateCaseGo cfg tax sim judge ddxList 1 gdxList none

/-!
Embedding of the `SemanticEvaluator`, `SeverityEvaluator` and `TopKMetrics`
modules of `bench/pipelines/summarization_feat (delete)/run.py`.
-/

/-- Rounding to 4 decimal places, modelling Python `round(x, 4)` on the exact
rational value (round-half-to-even on the 1/10000 grid; binary floating-point
representation effects are outside this model). -/
def round4 (q : ℚ) : ℚ :=
  let y := q * 10000
  let n := ⌊y⌋
  let f := y - n
  (if f < 1/2 then (n : ℚ) else if 1/2 < f then (n + 1 : ℚ)
   else if n % 2 = 0 then (n : ℚ) else (n + 1 : ℚ)) / 10000

/-- The taxonomy oracle consumed by `ICD10Comparator` in `run.py`
(`taxonomy.parents`, `taxonomy.parent`, and the `type` field of
`taxonomy.get`).  `nodeType code = none` models a falsy `taxonomy.get(code)`;
`nodeType code = some t` models an info dict whose `type` field is `t`
(`t = none` when the dict has no `type` key). -/
structure RunTaxonomy where
  parentsOf : String → List String
  parentOf : String → Option String
  nodeType : String → Option (Option String)

/-- Relationship labels returned by `ICD10Comparator.compare_diagnosis_pair`. -/
inductive Icd10Rel where
  | moreSpecific
  | exactMatch
  | moreGeneral
  | closeSibling
  | related
  | unrelated
deriving DecidableEq

/-- The close-sibling test of `compare_diagnosis_pair` (Priority 4): both codes
share a truthy immediate parent whose taxonomy node has a truthy info dict with
`type` not in `["chapter", "range"]`. -/
def closeSiblingCond (tax : RunTaxonomy) (ddxCode gdxCode : String) : Bool :=
  match tax.parentOf ddxCode with
  | none => false
  | some dp =>
    dp ≠ "" && tax.parentOf gdxCode == some dp &&
      (match tax.nodeType dp with
       | none => false
       | some ty => !(ty == some "chapter") && !(ty == some "range"))

/-- Mirrors `ICD10Comparator.compare_diagnosis_pair(ddx_code, gdx_code)`:
priorities MORE_SPECIFIC (score `1.0 + distance * 0.15`), EXACT_MATCH (`1.0`),
MORE_GENERAL (`0.8`), CLOSE_SIBLING (`0.7`), RELATED (`0.5`), UNRELATED (`0.0`),
in that order.  The oracle is total, so the `except` branch is unreachable. -/
def compareDiagnosisPair (tax : RunTaxonomy) (ddxCode gdxCode : String) : ℚ × Icd10Rel :=
  if (tax.parentsOf ddxCode).contains gdxCode then
    (1 + ((((tax.parentsOf ddxCode).indexOf gdxCode + 1 : ℕ) : ℚ)) * (3/20), .moreSpecific)
  else if ddxCode = gdxCode then (1, .exactMatch)
  else if (tax.parentsOf gdxCode).contains ddxCode then (4/5, .moreGeneral)
  else if closeSiblingCond tax ddxCode gdxCode then (7/10, .closeSibling)
  else if (tax.parentsOf ddxCode).any (fun a => (tax.parentsOf gdxCode).contains a) then
    (1/2, .related)
  else (0, .unrelated)

/-- Inner max loop of `_calculate_bert_similarity` over the prepared text
combinations: `if score and score > max_score` — a score updates the running
maximum only when it is truthy (nonzero) and strictly greater.  The relation
label tracking (`best_combo`) carries no decision weight and is omitted.
`oracle a b` models `results.get(a, {}).get(b, 0.0)`. -/
def bertComboLoop (oracle : String → String → ℚ) (ddxTexts gdxTexts : List String) : ℚ :=
  ddxTexts.foldl
    (fun acc dt =>
      gdxTexts.foldl
        (fun acc2 gt =>
          let s := oracle dt gt
          if s ≠ 0 ∧ acc2 < s then s else acc2)
        acc)
    0

/-- Mirrors `_calculate_bert_similarity` (score component): build the deduplicated
combination lists (`[name, normalized] if name != normalized else [name]` on each
side), take the maximum similarity over all combinations, and accept it (rounded
to 4 decimals) only when it reaches `0.80`, else return `0.0`.  The warm-up and
error paths concern the external endpoint and are not modelled. -/
def calculateBertSimilarity (oracle : String → String → ℚ)
    (ddxName ddxNormalized gdxName gdxNormalized : String) : ℚ :=
  let ddxTexts := if ddxName ≠ ddxNormalized then [ddxName, ddxNormalized] else [ddxName]
  let gdxTexts := if gdxName ≠ gdxNormalized then [gdxName, gdxNormalized] else [gdxName]
  let maxScore := bertComboLoop oracle ddxTexts gdxTexts
  if 4/5 ≤ maxScore then round4 maxScore else 0

/-- The `code_type` tag of a pair score in `evaluate_case_semantics`. -/
inductive CodeType where
  | noCode
  | icd10
  | snomed
  | omim
  | orpha
  | bert
deriving DecidableEq

/-- The ICD-10 double loop of `evaluate_case_semantics`: maximum
`compare_diagnosis_pair` score over all (ddx code, gdx code) pairs, updated on
strictly greater scores, starting from `(0.0, "none")`. -/
def icd10PairFold (tax : RunTaxonomy) (ddx gdx : Dx) : ℚ × CodeType :=
  ddx.codes.icd10.foldl
    (fun st dcode =>
      gdx.codes.icd10.foldl
        (fun st2 gcode =>
          let r := compareDiagnosisPair tax dcode gcode
          if st2.1 < r.1 then (r.1, .icd10) else st2)
        st)
    (0, .noCode)

/-- Nonempty-intersection test for one code system (Python
`set(ddx_codes) & set(gdx_codes)`). -/
def codesIntersect (a b : List String) : Bool :=
  a.any fun c => b.contains c

/-- One iteration of the `for code_type in ["snomed", "omim", "orpha"]` override
loop of `evaluate_case_semantics`: a nonempty exact-code intersection raises the
pair score to exactly `1.0` whenever the current score is below `1.0`. -/
def overrideStep (intersects : Bool) (ct : CodeType) (st : ℚ × CodeType) : ℚ × CodeType :=
  if intersects ∧ st.1 < 1 then ((1 : ℚ), ct) else st

/-- The override loop of `evaluate_case_semantics`, unrolled over the three code
systems in source order: snomed, then omim, then orpha. -/
def exactCodeOverride (ddx gdx : Dx) (st : ℚ × CodeType) : ℚ × CodeType :=
  overrideStep (codesIntersect ddx.codes.orpha gdx.codes.orpha) .orpha
    (overrideStep (codesIntersect ddx.codes.omim gdx.codes.omim) .omim
      (overrideStep (codesIntersect ddx.codes.snomed gdx.codes.snomed) .snomed st))

/-- The per-(DDX, GDX) score of `evaluate_case_semantics`: coded comparison
first (ICD-10 fold then exact-code override), BERT fallback only when the coded
score is exactly `0.0`, and the BERT value is taken only when positive. -/
def pairScore (tax : RunTaxonomy) (oracle : String → String → ℚ) (ddx gdx : Dx) :
    ℚ × CodeType :=
  let st := exactCodeOverride ddx gdx (icd10PairFold tax ddx gdx)
  if st.1 = 0 then
    let b := calculateBertSimilarity oracle ddx.name (textOf ddx) gdx.name (textOf gdx)
    if 0 < b then (b, .bert) else st
  else st

/-- The `best_match` record of `evaluate_case_semantics` (the `relationship`
label is dropped; it carries no decision weight). -/
structure BestSemMatch where
  ddxName : String
  gdxName : String
  score : ℚ
  codeType : CodeType
deriving DecidableEq

/-- The global best tracking of `evaluate_case_semantics`: iterate DDX in list
order, GDX in list order inside, and replace the best on strictly greater pair
scores.  The accumulator keeps the unrounded running `best_score` alongside the
`best_match` record (whose `score` field is rounded to 4 decimals). -/
def semanticsFold (tax : RunTaxonomy) (oracle : String → String → ℚ)
    (ddxList gdxList : List Dx) : ℚ × Option BestSemMatch :=
  ddxList.foldl
    (fun acc ddx =>
      gdxList.foldl
        (fun acc2 gdx =>
          let sc := pairScore tax oracle ddx gdx
          if acc2.1 < sc.1 then (sc.1, some ⟨ddx.name, gdx.name, round4 sc.1, sc.2⟩)
          else acc2)
        acc)
    (0, none)

/-- Mirrors the `best_match` result of `evaluate_case_semantics` (with the
default record used when no pair ever scored above `0.0`). -/
def evaluateCaseSemantics (tax : RunTaxonomy) (oracle : String → String → ℚ)
    (ddxList gdxList : List Dx) : BestSemMatch :=
  (semanticsFold tax oracle ddxList gdxList).2.getD ⟨"", "", 0, .noCode⟩

/-- The `severity_mapping` dict of `SeverityEvaluator.__init__`:
`{f"S{i}": i for i in range(11)}`. -/
def severityMapping : List (String × Nat) :=
  [("S0", 0), ("S1", 1), ("S2", 2), ("S3", 3), ("S4", 4), ("S5", 5),
   ("S6", 6), ("S7", 7), ("S8", 8), ("S9", 9), ("S10", 10)]

/-- Mirrors `self.severity_mapping.get(s, 5)`. -/
def severityNum (s : String) : Nat :=
  (severityMapping.lookup s).getD 5

/-- The `max_distance` computation of `evaluate_case_severity`:
`10 - sev_gdx` when `sev_gdx <= 5` else `sev_gdx`, then the
division-by-zero guard `if max_distance == 0: max_distance = 1`. -/
def maxDistance (sevGdx : Nat) : Nat :=
  let d := if sevGdx ≤ 5 then 10 - sevGdx else sevGdx
  if d = 0 then 1 else d

/-- One row of the `ddx_scores` output of `evaluate_case_severity`. -/
structure SeverityEntry where
  disease : String
  severity : String
  distance : Nat
  score : ℚ
deriving DecidableEq

/-- The result record of `evaluate_case_severity`. -/
structure SeverityResult where
  finalScore : ℚ
  optimistN : Nat
  optimistScore : ℚ
  pessimistN : Nat
  pessimistScore : ℚ
  ddxScores : List SeverityEntry
deriving DecidableEq

/-- Mirrors `evaluate_case_severity`.  `cache` models
`severity_assignments_cache.get` (queried with the DDX normalized text, default
`"S5"`); `bestGdxSeverity` models `best_gdx.get("severity", "S5")`.  Severity
distances are `abs(sev_gdx - sev_ddx)` on integers; each normalized value is
`distance / max_distance`; `final_score` is the mean over all DDX; optimists
(`sev_ddx < sev_gdx`) and pessimists (`sev_ddx > sev_gdx`) average within their
bucket (`0.0` on an empty bucket); all reported scores round to 4 decimals. -/
def evaluateCaseSeverity (cache : String → Option String) (ddxList : List Dx)
    (bestGdxSeverity : Option String) : SeverityResult :=
  let sevGdx := severityNum (bestGdxSeverity.getD "S5")
  let md : ℚ := (maxDistance sevGdx : ℚ)
  let rows := ddxList.map fun d =>
    let sevStr := (cache (textOf d)).getD "S5"
    let sevDdx := severityNum sevStr
    let dist := ((sevGdx : ℤ) - (sevDdx : ℤ)).natAbs
    (d.name, sevStr, sevDdx, dist, (dist : ℚ) / md)
  let normalized := rows.map fun r => r.2.2.2.2
  let optimist := (rows.filter fun r => r.2.2.1 < sevGdx).map fun r => r.2.2.2.2
  let pessimist := (rows.filter fun r => sevGdx < r.2.2.1).map fun r => r.2.2.2.2
  { finalScore := round4 (if normalized.length = 0 then 0 else normalized.sum / normalized.length)
    optimistN := optimist.length
    optimistScore := round4 (if optimist.length = 0 then 0 else optimist.sum / optimist.length)
    pessimistN := pessimist.length
    pessimistScore := round4 (if pessimist.length = 0 then 0 else pessimist.sum / pessimist.length)
    ddxScores := rows.map fun r => ⟨r.1, r.2.1, r.2.2.2.1, round4 r.2.2.2.2⟩ }

/-- Descending insertion used to model `all_scores.sort(reverse=True)` in
`calculate_topk_accuracy` (only the multiset of values matters). -/
def insertDesc (x : ℚ) : List ℚ → List ℚ
  | [] => [x]
  | y :: ys => if y ≤ x then x :: y :: ys else y :: insertDesc x ys

/-- Descending sort of the flattened score list. -/
def sortDesc : List ℚ → List ℚ :=
  List.foldr insertDesc []

/-- The `for rank, score in enumerate(all_scores, 1): if score >= threshold:
break` loop of `calculate_topk_accuracy`. -/
def firstHitRankGo (θ : ℚ) : Nat → List ℚ → Option Nat
  | _, [] => none
  | i, s :: rest => if θ ≤ s then some i else firstHitRankGo θ (i + 1) rest

/-- First 1-based rank, in the given (already sorted) score list, whose score
reaches the threshold. -/
def firstHitRank (scores : List ℚ) (θ : ℚ) : Option Nat :=
  firstHitRankGo θ 1 scores

/-- The result record of `calculate_topk_accuracy`. -/
structure TopKResult where
  totalCases : Nat
  top1 : ℚ
  top2 : ℚ
  top3 : ℚ
  top4 : ℚ
  top5 : ℚ
  meanReciprocalRank : ℚ
  averagePrecisionAt5 : ℚ
deriving DecidableEq

/-- Mirrors `TopKMetrics.calculate_topk_accuracy`.  A case is given as its
`detailed_scores` grid: one inner list of `gdx_scores` values per DDX entry, in
list order; the source flattens the grid (`all_scores`), sorts it descending,
and ranks within the sorted list.  `top<K>` is the fraction of cases whose first
sorted rank reaching the threshold is `<= K`; MRR averages `1/rank` (with `0.0`
for a case with no hit); `average_precision_at_5` averages
`sum(score for score in top5_scores if score >= threshold) / 5`. -/
def calculateTopkAccuracy (results : List (List (List ℚ))) (θ : ℚ) : TopKResult :=
  let ranks := results.map fun c => firstHitRank (sortDesc c.flatten) θ
  let hitsLe : Nat → Nat := fun k =>
    (ranks.filter fun r => match r with | some rk => decide (rk ≤ k) | none => false).length
  let total := results.length
  let rrs : List ℚ := ranks.map fun r => match r with | some rk => 1 / (rk : ℚ) | none => 0
  let p5 : List ℚ := results.map fun c =>
    (((sortDesc c.flatten).take 5).filter fun s => θ ≤ s).sum / 5
  { totalCases := total
    top1 := if 0 < total then round4 ((hitsLe 1 : ℚ) / (total : ℚ)) else 0
    top2 := if 0 < total then round4 ((hitsLe 2 : ℚ) / (total : ℚ)) else 0
    top3 := if 0 < total then round4 ((hitsLe 3 : ℚ) / (total : ℚ)) else 0
    top4 := if 0 < total then round4 ((hitsLe 4 : ℚ) / (total : ℚ)) else 0
    top5 := if 0 < total then round4 ((hitsLe 5 : ℚ) / (total : ℚ)) else 0
    meanReciprocalRank := if rrs.length ≠ 0 then round4 (rrs.sum / (rrs.length : ℚ)) else 0
    averagePrecisionAt5 := if p5.length ≠ 0 then round4 (p5.sum / (p5.length : ℚ)) else 0 }

/-- Scan of DDX positions (1-based) for the first whose per-GDX score list
contains a score reaching the threshold (helper for `specFirstHitPosition`). -/
def specFirstHitPositionGo (θ : ℚ) : Nat → List (List ℚ) → Option Nat
  | _, [] => none
  | i, g :: rest =>
    if g.any (fun s => θ ≤ s) then some i else specFirstHitPositionGo θ (i + 1) rest

/-- Modelled from the spec (section 4.4): the first DDX position (1-based, in
DDX-list order) whose score reaches the threshold — the rank the spec says
`topK_accuracy` and `mean_reciprocal_rank` are computed from.  A DDX position
reaches the threshold when any of its per-GDX scores does. -/
def specFirstHitPosition (caseScores : List (List ℚ)) (θ : ℚ) : Option Nat :=
  specFirstHitPositionGo θ 1 caseScores

/-- Modelled from the spec (section 4.1, Family 4): the similarity score the
spec attributes to one DDX position — the maximum over the four text pairings
(gdx.name, ddx.name), (gdx.name, ddx.normalized_text), (gdx.normalized_text,
ddx.name), (gdx.normalized_text, ddx.normalized_text), with identical pairs
deduplicated before querying. -/
def specFourPairingMax (sim : String → String → Option ℚ) (gdx ddx : Dx) : ℚ :=
  let pairs := [(gdx.name, ddx.name), (gdx.name, textOf ddx),
    (textOf gdx, ddx.name), (textOf gdx, textOf ddx)].dedup
  (pairs.map fun p => (sim p.1 p.2).getD 0).foldl max 0

/-!
Concrete inputs used by counterexamples and witnesses.
-/

/-- A diagnosis with no codes in any system. -/
def noCodes : MedicalCodes := ⟨[], [], [], []⟩

/-- A GDX entry with no codes and no normalization. -/
def gPlain : Dx := ⟨"g", none, noCodes⟩

/-- A DDX entry with no codes and no normalization. -/
def dPlain : Dx := ⟨"d", none, noCodes⟩

/-- A similarity oracle returning `0.85` for every pair. -/
def simC1 : String → String → Option ℚ := fun _ _ => some (17/20)

/-- A judge oracle whose reply parses to `0` ("no good match"). -/
def judgeC1 : String → List (Nat × String) → Option ℤ := fun _ _ => some 0

/-- The empty ICD-10 taxonomy oracle. -/
def taxEmpty : Icd10Taxonomy := ⟨fun _ => [], fun _ => [], fun _ => []⟩

/-- A similarity oracle returning `0.5` for every pair. -/
def simHalf : String → String → Option ℚ := fun _ _ => some (1/2)

/-- A judge oracle whose reply parses to `2`. -/
def judgeTwo : String → List (Nat × String) → Option ℤ := fun _ _ => some 2

/-!
Shared helper lemmas.
-/

theorem lookup_val_mem {α β : Type} [BEq α] (a : α) (b : β) :
    ∀ l : List (α × β), l.lookup a = some b → b ∈ l.map Prod.snd := by
  intro l
  induction l with
  | nil => intro h; simp [List.lookup] at h
  | cons p rest ih =>
    rcases p with ⟨k, v⟩
    simp only [List.lookup]
    split
    · intro h; injection h with h; simp [h]
    · intro h; simp only [List.map_cons, List.mem_cons]; exact Or.inr (ih h)

theorem severityNum_le_ten (s : String) : severityNum s ≤ 10 := by
  unfold severityNum
  cases h : severityMapping.lookup s with
  | none => simp
  | some v =>
    have hv : v ∈ severityMapping.map Prod.snd := lookup_val_mem s v severityMapping h
    have hall : ∀ x ∈ severityMapping.map Prod.snd, x ≤ 10 := by decide
    simpa using hall v hv

/-!
Claim C1 — judge failure in the semantic family.

The claim states that with `acceptance <= best < autoconfirm` and no usable
judge position the resolver succeeds with `BERT_MATCH`.  In the source the
`BERT_MATCH` branch additionally requires `llm_result["position"] is not None`,
so a judge failure below the autoconfirm threshold always lands in the final
`else` and the check FAILS.
-/

/-- Claim C1, counterexample: with the default thresholds, a uniform similarity
of `0.85` (which is `>=` acceptance `0.80` and `<` autoconfirm `0.90`) and a
judge that answers `0` (no usable position), `_evaluate_semantic_match` returns
the FAILED `noMatch` outcome — not a `BERT_MATCH` success as the claim states. -/
theorem c1_counterexample :
    evaluateSemanticMatch defaultConfig simC1 judgeC1 gPlain [dPlain] =
      .noMatch [(1, 17/20)] (some (1, 17/20)) ∧
    (evaluateSemanticMatch defaultConfig simC1 judgeC1 gPlain [dPlain]).status = .failed ∧
    defaultConfig.bertAcceptanceThreshold ≤ 17/20 ∧
    (17/20 : ℚ) < defaultConfig.bertAutoconfirmThreshold ∧
    getLlmJudgment judgeC1 (textOf gPlain) ([dPlain].map textOf) = none ∧
    (bertScan simC1 (textOf gPlain) ([dPlain].map textOf)).2.1 = 17/20 := by
  have hmain : evaluateSemanticMatch defaultConfig simC1 judgeC1 gPlain [dPlain] =
      .noMatch [(1, 17/20)] (some (1, 17/20)) := by
    norm_num [evaluateSemanticMatch, bertScan, bertScanGo, simC1, judgeC1, textOf,
      gPlain, dPlain, getLlmJudgment, llmCandidates, defaultConfig]
  refine ⟨hmain, by rw [hmain]; rfl, by norm_num [defaultConfig], by norm_num [defaultConfig], ?_, ?_⟩
  · norm_num [getLlmJudgment, llmCandidates, judgeC1]
  · norm_num [bertScan, bertScanGo, simC1, textOf, gPlain, dPlain]

/-- Claim C1, amended: in the semantic family, whenever the LLM judge yields no
usable position (call failure, unparseable reply, `0`, or out-of-range reply)
and the best BERT score is below the autoconfirm threshold, the check returns
FAILED — regardless of the acceptance threshold; there is no BERT-only
acceptance fallback. -/
theorem c1_amended_judge_failure_fails (cfg : Config)
    (sim : String → String → Option ℚ)
    (judge : String → List (Nat × String) → Option ℤ) (gdx : Dx) (ddxList : List Dx)
    (hjudge : getLlmJudgment judge (textOf gdx) (ddxList.map textOf) = none)
    (hbest : (bertScan sim (textOf gdx) (ddxList.map textOf)).2.1 <
      cfg.bertAutoconfirmThreshold) :
    evaluateSemanticMatch cfg sim judge gdx ddxList =
      .noMatch (bertScan sim (textOf gdx) (ddxList.map textOf)).1
        ((bertScan sim (textOf gdx) (ddxList.map textOf)).2.2.map
          fun p => (p, (bertScan sim (textOf gdx) (ddxList.map textOf)).2.1)) ∧
    (evaluateSemanticMatch cfg sim judge gdx ddxList).status = .failed := by
  have hmain : evaluateSemanticMatch cfg sim judge gdx ddxList =
      .noMatch (bertScan sim (textOf gdx) (ddxList.map textOf)).1
        ((bertScan sim (textOf gdx) (ddxList.map textOf)).2.2.map
          fun p => (p, (bertScan sim (textOf gdx) (ddxList.map textOf)).2.1)) := by
    unfold evaluateSemanticMatch
    dsimp only
    rw [if_neg (not_le.mpr hbest), hjudge]
  exact ⟨hmain, by rw [hmain]; rfl⟩

/-- Witness for the amended claim C1 at the concrete counterexample input. -/
theorem c1_amended_witness :
    evaluateSemanticMatch defaultConfig simC1 judgeC1 gPlain [dPlain] =
      .noMatch (bertScan simC1 (textOf gPlain) ([dPlain].map textOf)).1
        ((bertScan simC1 (textOf gPlain) ([dPlain].map textOf)).2.2.map
          fun p => (p, (bertScan simC1 (textOf gPlain) ([dPlain].map textOf)).2.1)) ∧
    (evaluateSemanticMatch defaultConfig simC1 judgeC1 gPlain [dPlain]).status = .failed :=
  c1_amended_judge_failure_fails defaultConfig simC1 judgeC1 gPlain [dPlain]
    (by norm_num [getLlmJudgment, llmCandidates, judgeC1])
    (by norm_num [bertScan, bertScanGo, simC1, textOf, gPlain, dPlain, defaultConfig])

/-!
Claim C5 — the candidates passed to the LLM judge.

The claim states the judge receives exactly the first 5 DDX texts.  In the
source `_get_llm_judgment` enumerates all of `ddx_texts` into the prompt; only
the reply interpretation is capped at 5.
-/

/-- Six candidate texts. -/
def sixTexts : List String := ["a", "b", "c", "d", "e", "f"]

/-- Claim C5, counterexample: for a six-entry DDX text list, the numbered
candidate list built by `_get_llm_judgment` for the judge prompt contains all
six texts — not the first five. -/
theorem c5_counterexample :
    (llmCandidates sixTexts).length = 6 ∧
    llmCandidates sixTexts = [(1, "a"), (2, "b"), (3, "c"), (4, "d"), (5, "e"), (6, "f")] ∧
    (llmCandidates sixTexts).map Prod.snd ≠ sixTexts.take 5 := by
  decide

/-- Claim C5, amended: the judge is invoked with the GDX text and all DDX texts
(each appearing, numbered from 1, in the prompt), and its reply is parsed as an
integer that is accepted only when it lies in `1..5` — `0`, out-of-range values
and unparseable replies all become "none". -/
theorem c5_amended (judge : String → List (Nat × String) → Option ℤ)
    (gdxText : String) (ddxTexts : List String) :
    (llmCandidates ddxTexts).map Prod.snd = ddxTexts ∧
    (llmCandidates ddxTexts).length = ddxTexts.length ∧
    getLlmJudgment judge gdxText ddxTexts =
      (judge gdxText (llmCandidates ddxTexts)).bind
        (fun n => if 1 ≤ n ∧ n ≤ 5 then some n.toNat else none) := by
  refine ⟨?_, ?_, ?_⟩
  · simp only [llmCandidates, List.map_map]
    have hcomp : (Prod.snd ∘ fun p : Nat × String => (p.1 + 1, p.2)) = Prod.snd := by
      funext p; rfl
    rw [hcomp, List.enum_map_snd]
  · simp [llmCandidates]
  · unfold getLlmJudgment
    cases judge gdxText (llmCandidates ddxTexts) <;> rfl

/-!
Claim C9 — the severity `max_distance` formula.

The first half of the claim (formula plus zero clamp) matches the source; the
"in particular" half is wrong: for `sev_gdx = 0` and `sev_gdx = 10` the
computed `max_distance` is `10`, not `1`, and the zero clamp is unreachable for
severities in `0..10` (the denominator is always at least `5`).
-/

/-- Claim C9, counterexample: `max_distance` for severities `S0` and `S10` is
`10`, not the `1` the claim asserts; with GDX severity `S0` and a DDX of cached
severity `S5` the computed normalized value is `|0-5|/10 = 0.5` (it would be `5`
had the distance been divided by a clamped `1`). -/
theorem c9_counterexample :
    maxDistance (severityNum "S0") = 10 ∧
    maxDistance (severityNum "S10") = 10 ∧
    maxDistance (severityNum "S0") ≠ 1 ∧
    (evaluateCaseSeverity (fun _ => some "S5") [dPlain] (some "S0")).ddxScores =
      [⟨"d", "S5", 5, 1/2⟩] := by
  refine ⟨by decide, by decide, by decide, ?_⟩
  have hs5 : severityNum "S5" = 5 := by decide
  have hs0 : severityNum "S0" = 0 := by decide
  have hmd : maxDistance 0 = 10 := by decide
  norm_num [evaluateCaseSeverity, textOf, dPlain, hs0, hs5, hmd, round4]

/-- Claim C9, amended: `max_distance` is computed as `10 - sev_gdx` when
`sev_gdx <= 5` and as `sev_gdx` otherwise, with a `0 -> 1` clamp; since every
severity string maps into `0..10`, the clamp never fires, `max_distance` is `10`
(not `1`) at both extremes, and it is always at least `5`, so the normalized
severity distance is never a division by zero. -/
theorem c9_amended (s : String) (cache : String → Option String)
    (ddxList : List Dx) (g : Option String) :
    maxDistance (severityNum s) =
      (if severityNum s ≤ 5 then 10 - severityNum s else severityNum s) ∧
    5 ≤ maxDistance (severityNum s) ∧
    maxDistance (severityNum "S0") = 10 ∧
    maxDistance (severityNum "S10") = 10 ∧
    ((maxDistance (severityNum (g.getD "S5")) : ℚ) ≠ 0) ∧
    (evaluateCaseSeverity cache ddxList g).ddxScores.length = ddxList.length := by
  have hten : ∀ t : String, severityNum t ≤ 10 := severityNum_le_ten
  have hform : ∀ t : String, maxDistance (severityNum t) =
      (if severityNum t ≤ 5 then 10 - severityNum t else severityNum t) := by
    intro t
    have h10 := hten t
    have hne : (if severityNum t ≤ 5 then 10 - severityNum t else severityNum t) ≠ 0 := by
      split <;> omega
    simp [maxDistance, hne]
  have hfive : ∀ t : String, 5 ≤ maxDistance (severityNum t) := by
    intro t
    have h10 := hten t
    rw [hform t]
    split <;> omega
  refine ⟨hform s, hfive s, by decide, by decide, ?_, ?_⟩
  · have h5 := hfive (g.getD "S5")
    have : (0 : ℚ) < (maxDistance (severityNum (g.getD "S5")) : ℚ) := by
      exact_mod_cast Nat.lt_of_lt_of_le (by norm_num) h5
    exact ne_of_gt this
  · simp [evaluateCaseSeverity]

/-!
Claim C2 — strict family precedence with explicit SKIPPED statuses and no
oracle invocation for skipped families.
-/

/-- A GDX sharing SNOMED code `"A"` with the DDX below. -/
def gdxSn : Dx := ⟨"g1", none, ⟨["A"], [], [], []⟩⟩

/-- A DDX with SNOMED code `"A"`. -/
def ddxSn : Dx := ⟨"d1", none, ⟨["A"], [], [], []⟩⟩

/-- A GDX with only ICD-10 code `"X"`. -/
def gdxIc : Dx := ⟨"g2", none, ⟨[], ["X"], [], []⟩⟩

/-- A DDX with only ICD-10 code `"X"`. -/
def ddxIc : Dx := ⟨"d2", none, ⟨[], ["X"], [], []⟩⟩

/-- A similarity oracle with no entries. -/
def simNone : String → String → Option ℚ := fun _ _ => none

/-- A judge oracle whose call always fails. -/
def judgeNone : String → List (Nat × String) → Option ℤ := fun _ _ => none

/-- Claim C2: when the SNOMED family succeeds, the per-GDX trace records the
ICD-10 and semantic families as SKIPPED, the whole trace is independent of the
taxonomy, similarity and judge oracles (they are never invoked), and the
resolved method is `SNOMED_MATCH`; when SNOMED does not succeed but ICD-10
does, the semantic family is recorded SKIPPED, the trace is independent of the
similarity and judge oracles, and the resolved method is the ICD-10 one. -/
theorem c2_family_short_circuit (cfg : Config) (tax tax' : Icd10Taxonomy)
    (sim sim' : String → String → Option ℚ)
    (judge judge' : String → List (Nat × String) → Option ℤ)
    (gdx : Dx) (ddxList : List Dx) :
    (∀ p c, evaluateSnomedMatch gdx ddxList = .success p c →
      evaluateSingleGdxWithTrace cfg tax sim judge gdx ddxList =
        ⟨.success p c, .skipped, .skipped⟩ ∧
      (evaluateSingleGdxWithTrace cfg tax sim judge gdx ddxList).icd10Check.status = .skipped ∧
      (evaluateSingleGdxWithTrace cfg tax sim judge gdx ddxList).semanticCheck.status = .skipped ∧
      evaluateSingleGdxWithTrace cfg tax sim judge gdx ddxList =
        evaluateSingleGdxWithTrace cfg tax' sim' judge' gdx ddxList ∧
      traceOutcome (evaluateSingleGdxWithTrace cfg tax sim judge gdx ddxList) =
        some (some p, .SNOMED_MATCH)) ∧
    (∀ s p c, (evaluateSnomedMatch gdx ddxList).status ≠ .success →
      evaluateIcd10Match cfg tax gdx ddxList = .success s p c →
      (evaluateSingleGdxWithTrace cfg tax sim judge gdx ddxList).semanticCheck.status = .skipped ∧
      evaluateSingleGdxWithTrace cfg tax sim judge gdx ddxList =
        evaluateSingleGdxWithTrace cfg tax sim' judge' gdx ddxList ∧
      traceOutcome (evaluateSingleGdxWithTrace cfg tax sim judge gdx ddxList) =
        some (some p, icd10Method s)) := by
  constructor
  · intro p c h
    have ht : evaluateSingleGdxWithTrace cfg tax sim judge gdx ddxList =
        ⟨.success p c, .skipped, .skipped⟩ := by
      simp [evaluateSingleGdxWithTrace, h]
    have ht' : evaluateSingleGdxWithTrace cfg tax' sim' judge' gdx ddxList =
        ⟨.success p c, .skipped, .skipped⟩ := by
      simp [evaluateSingleGdxWithTrace, h]
    exact ⟨ht, by rw [ht]; rfl, by rw [ht]; rfl, ht.trans ht'.symm, by rw [ht]; rfl⟩
  · intro s p c hsn hic
    cases hv : evaluateSnomedMatch gdx ddxList with
    | success p' c' => exact absurd (by rw [hv]; rfl) hsn
    | skipped =>
      have ht : evaluateSingleGdxWithTrace cfg tax sim judge gdx ddxList =
          ⟨.skipped, .success s p c, .skipped⟩ := by
        simp [evaluateSingleGdxWithTrace, hv, hic]
      have ht' : evaluateSingleGdxWithTrace cfg tax sim' judge' gdx ddxList =
          ⟨.skipped, .success s p c, .skipped⟩ := by
        simp [evaluateSingleGdxWithTrace, hv, hic]
      exact ⟨by rw [ht]; rfl, ht.trans ht'.symm, by rw [ht]; rfl⟩
    | failed =>
      have ht : evaluateSingleGdxWithTrace cfg tax sim judge gdx ddxList =
          ⟨.failed, .success s p c, .skipped⟩ := by
        simp [evaluateSingleGdxWithTrace, hv, hic]
      have ht' : evaluateSingleGdxWithTrace cfg tax sim' judge' gdx ddxList =
          ⟨.failed, .success s p c, .skipped⟩ := by
        simp [evaluateSingleGdxWithTrace, hv, hic]
      exact ⟨by rw [ht]; rfl, ht.trans ht'.symm, by rw [ht]; rfl⟩

/-- Witness for claim C2 at concrete inputs: a SNOMED match short-circuits (and
the trace does not change when the similarity and judge oracles are replaced by
failing ones), and an ICD-10 exact match skips the semantic family. -/
theorem c2_witness :
    (evaluateSingleGdxWithTrace defaultConfig taxEmpty simHalf judgeTwo gdxSn [ddxSn] =
        ⟨.success 1 "A", .skipped, .skipped⟩ ∧
      (evaluateSingleGdxWithTrace defaultConfig taxEmpty simHalf judgeTwo gdxSn
        [ddxSn]).icd10Check.status = .skipped ∧
      (evaluateSingleGdxWithTrace defaultConfig taxEmpty simHalf judgeTwo gdxSn
        [ddxSn]).semanticCheck.status = .skipped ∧
      evaluateSingleGdxWithTrace defaultConfig taxEmpty simHalf judgeTwo gdxSn [ddxSn] =
        evaluateSingleGdxWithTrace defaultConfig taxEmpty simNone judgeNone gdxSn [ddxSn] ∧
      traceOutcome (evaluateSingleGdxWithTrace defaultConfig taxEmpty simHalf judgeTwo gdxSn
        [ddxSn]) = some (some 1, .SNOMED_MATCH)) ∧
    ((evaluateSingleGdxWithTrace defaultConfig taxEmpty simHalf judgeTwo gdxIc
        [ddxIc]).semanticCheck.status = .skipped ∧
      evaluateSingleGdxWithTrace defaultConfig taxEmpty simHalf judgeTwo gdxIc [ddxIc] =
        evaluateSingleGdxWithTrace defaultConfig taxEmpty simNone judgeNone gdxIc [ddxIc] ∧
      traceOutcome (evaluateSingleGdxWithTrace defaultConfig taxEmpty simHalf judgeTwo gdxIc
        [ddxIc]) = some (some 1, icd10Method .exact)) :=
  ⟨(c2_family_short_circuit defaultConfig taxEmpty taxEmpty simHalf simNone judgeTwo judgeNone
      gdxSn [ddxSn]).1 1 "A" (by decide),
   (c2_family_short_circuit defaultConfig taxEmpty taxEmpty simHalf simNone judgeTwo judgeNone
      gdxIc [ddxIc]).2 .exact 1 "X" (by decide) (by decide)⟩

/-!
Claim C4 — per-position similarity in the semantic family.

The claim attributes to each DDX position the maximum over four text pairings
(with deduplication).  The resolver of `evaluator.py` queries a single pairing
per position — `(gdx normalized-or-name, ddx normalized-or-name)`; the
four-pairing maximum with deduplication exists only in
`_calculate_bert_similarity` of `run.py`.
-/

/-- A GDX whose name and normalized text differ. -/
def gdxC4 : Dx := ⟨"G", some "gn", noCodes⟩

/-- A DDX whose name and normalized text differ. -/
def ddxC4 : Dx := ⟨"D", some "dn", noCodes⟩

/-- A similarity oracle scoring the name/name pairing high (`0.95`) and all
other pairings low (`0.5`). -/
def simC4 : String → String → Option ℚ :=
  fun a b => if a = "G" ∧ b = "D" then some (19/20) else some (1/2)

theorem foldl_max_init_le (l : List ℚ) : ∀ acc : ℚ, acc ≤ l.foldl max acc := by
  induction l with
  | nil => intro acc; exact le_refl acc
  | cons x rest ih => intro acc; exact le_trans (le_max_left acc x) (ih (max acc x))

theorem bertScanGo_scores (sim : String → String → Option ℚ) (gdxText : String) :
    ∀ (ts : List String) (i : Nat) (acc : List (Nat × ℚ)) (best : ℚ) (bp : Option Nat),
      (bertScanGo sim gdxText ts i acc best bp).1 =
        acc ++ (ts.enumFrom i).filterMap fun p => (sim gdxText p.2).map fun s => (p.1, s) := by
  intro ts
  induction ts with
  | nil => intro i acc best bp; simp [bertScanGo]
  | cons t rest ih =>
    intro i acc best bp
    simp only [bertScanGo, List.enumFrom, List.filterMap_cons]
    cases hs : sim gdxText t with
    | none => simpa using ih (i + 1) acc best bp
    | some s =>
      simp only [Option.map_some]
      split
      · rw [ih (i + 1) (acc ++ [(i, s)]) s (some i)]
        simp
      · rw [ih (i + 1) (acc ++ [(i, s)]) best bp]
        simp

theorem foldl_step_eq_max (oracle : String → String → ℚ) (dt : String) :
    ∀ (l2 : List String) (acc : ℚ), 0 ≤ acc →
      l2.foldl (fun acc2 gt =>
        let s := oracle dt gt
        if s ≠ 0 ∧ acc2 < s then s else acc2) acc =
      (l2.map fun gt => oracle dt gt).foldl max acc := by
  intro l2
  induction l2 with
  | nil => intro acc _; rfl
  | cons gt rest ih =>
    intro acc hacc
    simp only [List.foldl_cons, List.map_cons]
    have hstep : (if oracle dt gt ≠ 0 ∧ acc < oracle dt gt then oracle dt gt else acc) =
        max acc (oracle dt gt) := by
      rcases lt_or_le acc (oracle dt gt) with h | h
      · rw [if_pos ⟨ne_of_gt (lt_of_le_of_lt hacc h), h⟩, max_eq_right (le_of_lt h)]
      · rw [if_neg (fun hc => absurd hc.2 (not_lt.mpr h)), max_eq_left h]
    show List.foldl _ (if oracle dt gt ≠ 0 ∧ acc < oracle dt gt then oracle dt gt else acc) rest = _
    rw [hstep]
    exact ih (max acc (oracle dt gt)) (le_trans hacc (le_max_left _ _))

theorem bertComboLoop_eq_max (oracle : String → String → ℚ) (l1 l2 : List String) :
    bertComboLoop oracle l1 l2 =
      ((l1.product l2).map fun p => oracle p.1 p.2).foldl max 0 := by
  unfold bertComboLoop
  suffices h : ∀ (m : List String) (acc : ℚ), 0 ≤ acc →
      m.foldl (fun acc dt =>
        l2.foldl (fun acc2 gt =>
          let s := oracle dt gt
          if s ≠ 0 ∧ acc2 < s then s else acc2) acc) acc =
      ((m.product l2).map fun p => oracle p.1 p.2).foldl max acc by
    exact h l1 0 le_rfl
  intro m
  induction m with
  | nil => intro acc _; simp [List.product]
  | cons dt rest ih =>
    intro acc hacc
    simp only [List.foldl_cons]
    rw [foldl_step_eq_max oracle dt l2 acc hacc,
      ih _ (le_trans hacc (foldl_max_init_le _ acc))]
    have hmm : (l2.map fun b => (dt, b)).map (fun p : String × String => oracle p.1 p.2) =
        l2.map fun gt => oracle dt gt := by
      rw [List.map_map]; rfl
    have hp : List.product (dt :: rest) l2 =
        (l2.map fun b => (dt, b)) ++ List.product rest l2 := rfl
    rw [hp, List.map_append, List.foldl_append, hmm]

/-- Claim C4, counterexample: in the resolver, the score attributed to DDX
position 1 is the single normalized-pairing similarity `0.5`, whereas the
four-pairing maximum the claim prescribes is `0.95` — and the semantic check
accordingly fails rather than seeing the high name/name score. -/
theorem c4_counterexample :
    (bertScan simC4 (textOf gdxC4) ([ddxC4].map textOf)).1 = [(1, 1/2)] ∧
    evaluateSemanticMatch defaultConfig simC4 judgeNone gdxC4 [ddxC4] =
      .noMatch [(1, 1/2)] (some (1, 1/2)) ∧
    specFourPairingMax simC4 gdxC4 ddxC4 = 19/20 ∧
    ((1 : ℚ)/2 ≠ 19/20) := by
  have h11 : simC4 "G" "D" = some (19/20) := by
    simp only [simC4]; rw [if_pos (by decide)]
  have h12 : simC4 "G" "dn" = some (1/2) := by
    simp only [simC4]; rw [if_neg (by decide)]
  have h21 : simC4 "gn" "D" = some (1/2) := by
    simp only [simC4]; rw [if_neg (by decide)]
  have h22 : simC4 "gn" "dn" = some (1/2) := by
    simp only [simC4]; rw [if_neg (by decide)]
  refine ⟨?_, ?_, ?_, by norm_num⟩
  · norm_num [bertScan, bertScanGo, textOf, gdxC4, ddxC4, h22]
  · norm_num [evaluateSemanticMatch, bertScan, bertScanGo, textOf, gdxC4, ddxC4, h22,
      getLlmJudgment, llmCandidates, judgeNone, defaultConfig]
  · have hd : [("G", "D"), ("G", "dn"), ("gn", "D"), ("gn", "dn")].dedup =
        [("G", "D"), ("G", "dn"), ("gn", "D"), ("gn", "dn")] :=
      List.dedup_eq_self.mpr (by decide)
    norm_num [specFourPairingMax, textOf, gdxC4, ddxC4, hd, h11, h12, h21, h22,
      sup_eq_max, max_def]

/-- Claim C4, amended: in the pipeline-v4 resolver the score attributed to each
DDX position is the single similarity of the pairing
`(gdx normalized-or-name, ddx normalized-or-name)` (positions with a missing
similarity entry are omitted); the maximum over the name/normalized pairings
with identical texts collapsed is computed only by `_calculate_bert_similarity`
in the summarization pipeline, which additionally rounds the maximum to 4
decimals and zeroes it below `0.80`. -/
theorem c4_amended :
    (∀ (sim : String → String → Option ℚ) (gtext : String) (dtexts : List String),
      (bertScan sim gtext dtexts).1 =
        (dtexts.enumFrom 1).filterMap fun p => (sim gtext p.2).map fun s => (p.1, s)) ∧
    (∀ (oracle : String → String → ℚ) (dn dnorm gn gnorm : String),
      calculateBertSimilarity oracle dn dnorm gn gnorm =
        (let pairs := (if dn ≠ dnorm then [dn, dnorm] else [dn]).product
            (if gn ≠ gnorm then [gn, gnorm] else [gn])
         let m := (pairs.map fun p => oracle p.1 p.2).foldl max 0
         if 4/5 ≤ m then round4 m else 0)) := by
  constructor
  · intro sim gtext dtexts
    simpa using bertScanGo_scores sim gtext dtexts 1 [] 0 none
  · intro oracle dn dnorm gn gnorm
    unfold calculateBertSimilarity
    dsimp only
    rw [bertComboLoop_eq_max]

/-!
Claim C6 — OMIM/ORPHA exact hits have ICD10-exact priority and are never
shadowed by a weaker BERT fallback (in `evaluate_case_semantics` of `run.py`).
-/

theorem foldlPreserve {α β : Type} (P : β → Prop) (f : β → α → β)
    (hf : ∀ b a, P b → P (f b a)) : ∀ (l : List α) (b : β), P b → P (l.foldl f b) := by
  intro l
  induction l with
  | nil => intro b hb; exact hb
  | cons x xs ih => intro b hb; exact ih (f b x) (hf b x hb)

theorem foldl_fst_mono {α β : Type} (f : ℚ × β → α → ℚ × β)
    (hmono : ∀ b a, b.1 ≤ (f b a).1) : ∀ (l : List α) (b : ℚ × β), b.1 ≤ (l.foldl f b).1 := by
  intro l
  induction l with
  | nil => intro b; exact le_refl _
  | cons x xs ih => intro b; exact le_trans (hmono b x) (ih (f b x))

theorem foldl_fst_ge_of_mem {α β : Type} (f : ℚ × β → α → ℚ × β)
    (hmono : ∀ b a, b.1 ≤ (f b a).1) (v : ℚ) (target : α)
    (hhit : ∀ b : ℚ × β, v ≤ (f b target).1) :
    ∀ (l : List α), target ∈ l → ∀ b : ℚ × β, v ≤ (l.foldl f b).1 := by
  intro l
  induction l with
  | nil => intro h; cases h
  | cons x xs ih =>
    intro hmem b
    rcases List.mem_cons.mp hmem with heq | hin
    · subst heq
      exact le_trans (hhit b) (foldl_fst_mono f hmono xs (f b target))
    · exact ih hin (f b x)

theorem one_le_round4 {q : ℚ} (h : 1 ≤ q) : 1 ≤ round4 q := by
  unfold round4
  have hn : (10000 : ℤ) ≤ ⌊q * 10000⌋ := by
    apply Int.le_floor.mpr
    push_cast
    linarith
  have hq : (10000 : ℚ) ≤ (⌊q * 10000⌋ : ℚ) := by exact_mod_cast hn
  dsimp only
  split
  · rw [le_div_iff (by norm_num)]
    linarith
  · split
    · rw [le_div_iff (by norm_num)]
      push_cast
      linarith
    · split
      · rw [le_div_iff (by norm_num)]
        linarith
      · rw [le_div_iff (by norm_num)]
        push_cast
        linarith

theorem round4_le_one {q : ℚ} (h : q ≤ 1) : round4 q ≤ 1 := by
  unfold round4
  have hn : ⌊q * 10000⌋ ≤ 10000 := by
    have : ⌊q * 10000⌋ ≤ ⌊(10000 : ℚ)⌋ := Int.floor_le_floor (by linarith)
    simpa using this
  have hfl : (⌊q * 10000⌋ : ℚ) ≤ q * 10000 := Int.floor_le _
  dsimp only
  split
  · rw [div_le_one (by norm_num)]
    exact_mod_cast hn
  · rename_i hlt
    push_neg at hlt
    split
    · rename_i hgt
      have h9 : ⌊q * 10000⌋ ≤ 9999 := by
        by_contra hc
        push_neg at hc
        have h1 : ⌊q * 10000⌋ = 10000 := le_antisymm hn hc
        rw [h1] at hgt
        push_cast at hgt
        linarith
      rw [div_le_one (by norm_num)]
      push_cast
      exact_mod_cast by linarith [h9]
    · rename_i hngt
      push_neg at hngt
      have hhalf : q * 10000 - (⌊q * 10000⌋ : ℚ) = 1/2 := le_antisymm hngt hlt
      have h9 : ⌊q * 10000⌋ ≤ 9999 := by
        by_contra hc
        push_neg at hc
        have h1 : ⌊q * 10000⌋ = 10000 := le_antisymm hn hc
        rw [h1] at hhalf
        push_cast at hhalf
        linarith
      split
      · rw [div_le_one (by norm_num)]
        exact_mod_cast hn
      · rw [div_le_one (by norm_num)]
        push_cast
        exact_mod_cast by linarith [h9]

theorem icd10PairFold_init_le (tax : RunTaxonomy) (ddx gdx : Dx) :
    0 ≤ (icd10PairFold tax ddx gdx).1 := by
  unfold icd10PairFold
  exact foldl_fst_mono _
    (fun st dcode => foldl_fst_mono _
      (fun st2 gcode => by
        dsimp only
        split
        · exact le_of_lt (by assumption)
        · exact le_refl _) gdx.codes.icd10 st)
    ddx.codes.icd10 ((0 : ℚ), CodeType.noCode)

theorem overrideStep_mono (b : Bool) (ct : CodeType) (st : ℚ × CodeType) :
    st.1 ≤ (overrideStep b ct st).1 := by
  unfold overrideStep
  split
  · rename_i h
    exact le_of_lt h.2
  · exact le_refl _

theorem overrideStep_hit (b : Bool) (ct : CodeType) (st : ℚ × CodeType)
    (hb : b = true) (h0 : 0 ≤ st.1) : 1 ≤ (overrideStep b ct st).1 := by
  unfold overrideStep
  split
  · exact le_refl 1
  · rename_i h
    by_contra hc
    push_neg at hc
    exact h ⟨hb, hc⟩

theorem overrideStep_ne_bert (b : Bool) (ct : CodeType) (st : ℚ × CodeType)
    (hct : ct ≠ .bert) (hst : st.2 ≠ .bert) : (overrideStep b ct st).2 ≠ .bert := by
  unfold overrideStep
  split
  · exact hct
  · exact hst

theorem exactOverride_ge_one (ddx gdx : Dx) (st : ℚ × CodeType) (h0 : 0 ≤ st.1)
    (hx : codesIntersect ddx.codes.omim gdx.codes.omim = true ∨
      codesIntersect ddx.codes.orpha gdx.codes.orpha = true) :
    1 ≤ (exactCodeOverride ddx gdx st).1 := by
  unfold exactCodeOverride
  have h1 : 0 ≤ (overrideStep (codesIntersect ddx.codes.snomed gdx.codes.snomed)
      CodeType.snomed st).1 :=
    le_trans h0 (overrideStep_mono _ _ _)
  rcases hx with hx | hx
  · exact le_trans (overrideStep_hit _ CodeType.omim _ hx h1) (overrideStep_mono _ _ _)
  · exact overrideStep_hit _ CodeType.orpha _ hx (le_trans h1 (overrideStep_mono _ _ _))

theorem exactOverride_snd_ne_bert (ddx gdx : Dx) (st : ℚ × CodeType)
    (h : st.2 ≠ .bert) : (exactCodeOverride ddx gdx st).2 ≠ .bert := by
  unfold exactCodeOverride
  exact overrideStep_ne_bert _ _ _ (by simp)
    (overrideStep_ne_bert _ _ _ (by simp) (overrideStep_ne_bert _ _ _ (by simp) h))

theorem icd10PairFold_snd_ne_bert (tax : RunTaxonomy) (ddx gdx : Dx) :
    (icd10PairFold tax ddx gdx).2 ≠ .bert := by
  unfold icd10PairFold
  refine foldlPreserve (fun st : ℚ × CodeType => st.2 ≠ CodeType.bert)
    _ ?_ ddx.codes.icd10 ((0 : ℚ), CodeType.noCode) (by simp)
  intro b dcode hb
  refine foldlPreserve (fun st : ℚ × CodeType => st.2 ≠ CodeType.bert)
    _ ?_ gdx.codes.icd10 b hb
  intro b2 gcode hb2
  dsimp only
  split
  · simp
  · exact hb2

theorem pairScore_exact_hit (tax : RunTaxonomy) (oracle : String → String → ℚ)
    (ddx gdx : Dx)
    (hx : codesIntersect ddx.codes.omim gdx.codes.omim = true ∨
      codesIntersect ddx.codes.orpha gdx.codes.orpha = true) :
    1 ≤ (pairScore tax oracle ddx gdx).1 ∧ (pairScore tax oracle ddx gdx).2 ≠ .bert := by
  have h0 := icd10PairFold_init_le tax ddx gdx
  have h1 := exactOverride_ge_one ddx gdx (icd10PairFold tax ddx gdx) h0 hx
  have hne : ¬ (exactCodeOverride ddx gdx (icd10PairFold tax ddx gdx)).1 = 0 := by
    intro hc
    rw [hc] at h1
    linarith
  have hps : pairScore tax oracle ddx gdx =
      exactCodeOverride ddx gdx (icd10PairFold tax ddx gdx) := by
    unfold pairScore
    dsimp only
    rw [if_neg hne]
  rw [hps]
  exact ⟨h1, exactOverride_snd_ne_bert ddx gdx _ (icd10PairFold_snd_ne_bert tax ddx gdx)⟩

theorem foldl_max_le_of_all {c : ℚ} :
    ∀ (l : List ℚ) (acc : ℚ), (∀ x ∈ l, x ≤ c) → acc ≤ c → l.foldl max acc ≤ c := by
  intro l
  induction l with
  | nil => intro acc _ hacc; exact hacc
  | cons x xs ih =>
    intro acc hall hacc
    exact ih (max acc x)
      (fun y hy => hall y (List.mem_cons_of_mem x hy))
      (max_le hacc (hall x (List.mem_cons_self x xs)))

theorem calculateBertSimilarity_le_one (oracle : String → String → ℚ)
    (hor : ∀ a b, 0 ≤ oracle a b ∧ oracle a b ≤ 1) (dn dnorm gn gnorm : String) :
    calculateBertSimilarity oracle dn dnorm gn gnorm ≤ 1 := by
  have hloop : ∀ l1 l2 : List String, bertComboLoop oracle l1 l2 ≤ 1 := by
    intro l1 l2
    rw [bertComboLoop_eq_max]
    apply foldl_max_le_of_all
    · intro x hx
      rcases List.mem_map.mp hx with ⟨p, _, hpx⟩
      rw [← hpx]
      exact (hor p.1 p.2).2
    · norm_num
  unfold calculateBertSimilarity
  dsimp only
  split <;> split <;> split <;>
    first
      | exact round4_le_one (hloop _ _)
      | norm_num

theorem semanticsFold_score_inv (tax : RunTaxonomy) (oracle : String → String → ℚ)
    (ddxList gdxList : List Dx) :
    ((semanticsFold tax oracle ddxList gdxList).2 = none →
      (semanticsFold tax oracle ddxList gdxList).1 = 0) ∧
    (∀ m, (semanticsFold tax oracle ddxList gdxList).2 = some m →
      m.score = round4 (semanticsFold tax oracle ddxList gdxList).1) := by
  unfold semanticsFold
  have hstep : ∀ (b1 : ℚ × Option BestSemMatch) (ddx : Dx),
      ((b1.2 = none → b1.1 = 0) ∧ ∀ m, b1.2 = some m → m.score = round4 b1.1) →
      (((gdxList.foldl (fun acc2 gdx =>
          let sc := pairScore tax oracle ddx gdx
          if acc2.1 < sc.1 then (sc.1, some ⟨ddx.name, gdx.name, round4 sc.1, sc.2⟩)
          else acc2) b1).2 = none →
        (gdxList.foldl (fun acc2 gdx =>
          let sc := pairScore tax oracle ddx gdx
          if acc2.1 < sc.1 then (sc.1, some ⟨ddx.name, gdx.name, round4 sc.1, sc.2⟩)
          else acc2) b1).1 = 0) ∧
        ∀ m, (gdxList.foldl (fun acc2 gdx =>
          let sc := pairScore tax oracle ddx gdx
          if acc2.1 < sc.1 then (sc.1, some ⟨ddx.name, gdx.name, round4 sc.1, sc.2⟩)
          else acc2) b1).2 = some m →
          m.score = round4 (gdxList.foldl (fun acc2 gdx =>
            let sc := pairScore tax oracle ddx gdx
            if acc2.1 < sc.1 then (sc.1, some ⟨ddx.name, gdx.name, round4 sc.1, sc.2⟩)
            else acc2) b1).1) := by
    intro b1 ddx hb1
    refine foldlPreserve (fun b : ℚ × Option BestSemMatch =>
      (b.2 = none → b.1 = 0) ∧ ∀ m, b.2 = some m → m.score = round4 b.1)
      _ ?_ gdxList b1 hb1
    intro b2 gdx hb2
    dsimp only
    split
    · constructor
      · intro h
        exact absurd h (by simp)
      · intro m hm
        cases hm
        rfl
    · exact hb2
  exact foldlPreserve (fun b : ℚ × Option BestSemMatch =>
      (b.2 = none → b.1 = 0) ∧ ∀ m, b.2 = some m → m.score = round4 b.1)
    _ hstep ddxList ((0 : ℚ), none) ⟨fun _ => rfl, fun m hm => by exact absurd hm (by simp)⟩

theorem semanticsFold_fst_ge (tax : RunTaxonomy) (oracle : String → String → ℚ)
    (ddxList gdxList : List Dx) (d g : Dx) (hd : d ∈ ddxList) (hg : g ∈ gdxList) :
    (pairScore tax oracle d g).1 ≤ (semanticsFold tax oracle ddxList gdxList).1 := by
  unfold semanticsFold
  have hinner_mono : ∀ (dx : Dx) (b : ℚ × Option BestSemMatch) (gx : Dx),
      b.1 ≤ ((fun acc2 gdx =>
        let sc := pairScore tax oracle dx gdx
        if acc2.1 < sc.1 then (sc.1, some ⟨dx.name, gdx.name, round4 sc.1, sc.2⟩)
        else acc2) b gx).1 := by
    intro dx b gx
    dsimp only
    split
    · exact le_of_lt (by assumption)
    · exact le_refl _
  apply foldl_fst_ge_of_mem _ ?_ _ d ?_ ddxList hd
  · intro b dx
    exact foldl_fst_mono _ (hinner_mono dx) gdxList b
  · intro b
    apply foldl_fst_ge_of_mem _ (hinner_mono d) _ g ?_ gdxList hg
    intro b2
    dsimp only
    split
    · exact le_refl _
    · rename_i hlt
      push_neg at hlt
      exact hlt

/-- The taxonomy oracle of `run.py` with no relations. -/
def runTaxEmpty : RunTaxonomy := ⟨fun _ => [], fun _ => none, fun _ => none⟩

/-- A GDX with only OMIM code `"100"`. -/
def gdxC6 : Dx := ⟨"g6", none, ⟨[], [], ["100"], []⟩⟩

/-- A DDX with only OMIM code `"100"`. -/
def ddxC6 : Dx := ⟨"d6", none, ⟨[], [], ["100"], []⟩⟩

/-- A similarity oracle for `run.py` returning `0.5` everywhere. -/
def oracleHalf : String → String → ℚ := fun _ _ => 1/2

/-- Claim C6: in `evaluate_case_semantics`, (i) every (DDX, GDX) pair with an
exact OMIM or ORPHA code intersection scores at least `1.0` and its winning
code type is not BERT; (ii) an ICD-10 exact code match scores exactly `1.0`
(the same priority value); (iii) with a similarity oracle bounded by `[0, 1]`
every BERT fallback value is at most `1`; and (iv) whenever such an exact pair
exists the final best match of the case scores at least `1` — it is never
shadowed by a lower-confidence BERT fallback score. -/
theorem c6_exact_code_priority (tax : RunTaxonomy) (oracle : String → String → ℚ)
    (ddxList gdxList : List Dx)
    (hor : ∀ a b, 0 ≤ oracle a b ∧ oracle a b ≤ 1)
    (hex : ∃ d ∈ ddxList, ∃ g ∈ gdxList,
      codesIntersect d.codes.omim g.codes.omim = true ∨
      codesIntersect d.codes.orpha g.codes.orpha = true) :
    (∀ d g : Dx, (codesIntersect d.codes.omim g.codes.omim = true ∨
        codesIntersect d.codes.orpha g.codes.orpha = true) →
      1 ≤ (pairScore tax oracle d g).1 ∧ (pairScore tax oracle d g).2 ≠ .bert) ∧
    (∀ c : String, (tax.parentsOf c).contains c = false →
      compareDiagnosisPair tax c c = (1, .exactMatch)) ∧
    (∀ dn dnorm gn gnorm : String, calculateBertSimilarity oracle dn dnorm gn gnorm ≤ 1) ∧
    1 ≤ (evaluateCaseSemantics tax oracle ddxList gdxList).score := by
  refine ⟨fun d g hx => pairScore_exact_hit tax oracle d g hx, ?_, ?_, ?_⟩
  · intro c hc
    have hc2 : c ∉ tax.parentsOf c := by simpa using hc
    unfold compareDiagnosisPair
    rw [if_neg (by simpa using hc2), if_pos rfl]
  · exact calculateBertSimilarity_le_one oracle hor
  · obtain ⟨d, hd, g, hg, hx⟩ := hex
    have hpair := (pairScore_exact_hit tax oracle d g hx).1
    have hbest : 1 ≤ (semanticsFold tax oracle ddxList gdxList).1 :=
      le_trans hpair (semanticsFold_fst_ge tax oracle ddxList gdxList d g hd hg)
    obtain ⟨hnone, hsome⟩ := semanticsFold_score_inv tax oracle ddxList gdxList
    unfold evaluateCaseSemantics
    cases hm : (semanticsFold tax oracle ddxList gdxList).2 with
    | none =>
      have := hnone hm
      rw [this] at hbest
      linarith
    | some m =>
      simp only [Option.getD_some]
      rw [hsome m hm]
      exact one_le_round4 hbest

/-- Witness for claim C6 at a concrete input: one DDX and one GDX sharing OMIM
code `"100"`, an empty taxonomy and a `0.5` similarity oracle. -/
theorem c6_witness :
    (∀ d g : Dx, (codesIntersect d.codes.omim g.codes.omim = true ∨
        codesIntersect d.codes.orpha g.codes.orpha = true) →
      1 ≤ (pairScore runTaxEmpty oracleHalf d g).1 ∧
      (pairScore runTaxEmpty oracleHalf d g).2 ≠ .bert) ∧
    (∀ c : String, (runTaxEmpty.parentsOf c).contains c = false →
      compareDiagnosisPair runTaxEmpty c c = (1, .exactMatch)) ∧
    (∀ dn dnorm gn gnorm : String,
      calculateBertSimilarity oracleHalf dn dnorm gn gnorm ≤ 1) ∧
    1 ≤ (evaluateCaseSemantics runTaxEmpty oracleHalf [ddxC6] [gdxC6]).score :=
  c6_exact_code_priority runTaxEmpty oracleHalf [ddxC6] [gdxC6]
    (fun _ _ => ⟨by norm_num [oracleHalf], by norm_num [oracleHalf]⟩)
    ⟨ddxC6, by simp, gdxC6, by simp, Or.inl (by decide)⟩

/-!
Claim C8 — Top-K accuracy and MRR ranking.

The claim (and the spec) rank by DDX-list position; the source sorts the
flattened score list descending and ranks within the sorted list, so the first
qualifying rank is always 1 whenever any score qualifies — `top1` through
`top5` provably coincide on every input.
-/

theorem mem_insertDesc {x y : ℚ} : ∀ l : List ℚ, (y ∈ insertDesc x l ↔ y = x ∨ y ∈ l) := by
  intro l
  induction l with
  | nil => simp [insertDesc]
  | cons a as ih =>
    unfold insertDesc
    split
    · simp
    · simp only [List.mem_cons, ih]
      tauto

theorem mem_sortDesc {y : ℚ} : ∀ l : List ℚ, (y ∈ sortDesc l ↔ y ∈ l) := by
  intro l
  induction l with
  | nil => simp [sortDesc]
  | cons a as ih =>
    show y ∈ insertDesc a (sortDesc as) ↔ _
    rw [mem_insertDesc, ih]
    simp

theorem head_insertDesc_ge (x : ℚ) (s : List ℚ) :
    ∃ h t, insertDesc x s = h :: t ∧ x ≤ h ∧ ∀ h' t', s = h' :: t' → h' ≤ h := by
  cases s with
  | nil => exact ⟨x, [], rfl, le_refl x, by intro h' t' hc; cases hc⟩
  | cons y ys =>
    unfold insertDesc
    split
    · rename_i hyx
      exact ⟨x, y :: ys, rfl, le_refl x, by intro h' t' hc; cases hc; exact hyx⟩
    · rename_i hyx
      push_neg at hyx
      exact ⟨y, insertDesc x ys, rfl, le_of_lt hyx,
        by intro h' t' hc; cases hc; exact le_refl _⟩

theorem sortDesc_head_ge {x : ℚ} : ∀ l : List ℚ, x ∈ l →
    ∃ h t, sortDesc l = h :: t ∧ x ≤ h := by
  intro l
  induction l with
  | nil => intro hc; cases hc
  | cons a as ih =>
    intro hmem
    obtain ⟨h, t, heq, hah, hmono⟩ := head_insertDesc_ge a (sortDesc as)
    rcases List.mem_cons.mp hmem with hx | hx
    · exact ⟨h, t, heq, hx ▸ hah⟩
    · obtain ⟨h0, t0, heq0, hxh0⟩ := ih hx
      exact ⟨h, t, heq, le_trans hxh0 (hmono h0 t0 heq0)⟩

theorem firstHitRankGo_none (θ : ℚ) :
    ∀ (l : List ℚ) (i : Nat), (∀ x ∈ l, ¬ θ ≤ x) → firstHitRankGo θ i l = none := by
  intro l
  induction l with
  | nil => intro i _; rfl
  | cons s rest ih =>
    intro i hall
    unfold firstHitRankGo
    rw [if_neg (hall s (List.mem_cons_self s rest))]
    exact ih (i + 1) fun x hx => hall x (List.mem_cons_of_mem s hx)

theorem firstHitRank_sorted_cases (l : List ℚ) (θ : ℚ) :
    firstHitRank (sortDesc l) θ = none ∨ firstHitRank (sortDesc l) θ = some 1 := by
  by_cases hex : ∃ x ∈ l, θ ≤ x
  · obtain ⟨x, hx, hθ⟩ := hex
    obtain ⟨h, t, heq, hle⟩ := sortDesc_head_ge l hx
    right
    unfold firstHitRank
    rw [heq]
    unfold firstHitRankGo
    rw [if_pos (le_trans hθ hle)]
  · left
    push_neg at hex
    exact firstHitRankGo_none θ (sortDesc l) 1
      fun x hx => not_le.mpr (hex x ((mem_sortDesc (sortDesc l |> fun _ => l)).mp hx))

/-- Claim C8 (code bug exhibit): on the single-case input whose DDX position 1
scores `0.0` and position 2 scores `0.9` (threshold `0.8`), the source counts
the case as a top-1 hit (`top1 = 1`), although the first DDX position reaching
the threshold is 2; in general the source's `top1` and `top5` accuracies
coincide on every input because it ranks within the descending-sorted score
list, where any qualifying case has rank 1. -/
theorem c8_topk_rank_divergence :
    (calculateTopkAccuracy [[[0], [9/10]]] (4/5)).top1 = 1 ∧
    (calculateTopkAccuracy [[[0], [9/10]]] (4/5)).meanReciprocalRank = 1 ∧
    specFirstHitPosition [[0], [9/10]] (4/5) = some 2 ∧
    ∀ (results : List (List (List ℚ))) (θ : ℚ),
      (calculateTopkAccuracy results θ).top1 = (calculateTopkAccuracy results θ).top5 := by
  refine ⟨?_, ?_, ?_, ?_⟩
  · norm_num [calculateTopkAccuracy, sortDesc, insertDesc, firstHitRank, firstHitRankGo,
      round4, List.filter]
  · norm_num [calculateTopkAccuracy, sortDesc, insertDesc, firstHitRank, firstHitRankGo,
      round4, List.filter]
  · norm_num [specFirstHitPosition, specFirstHitPositionGo]
  · intro results θ
    unfold calculateTopkAccuracy
    dsimp only
    have hfilter : (results.map fun c => firstHitRank (sortDesc c.flatten) θ).filter
        (fun r => match r with | some rk => decide (rk ≤ 1) | none => false) =
        (results.map fun c => firstHitRank (sortDesc c.flatten) θ).filter
        (fun r => match r with | some rk => decide (rk ≤ 5) | none => false) := by
      apply List.filter_congr
      intro r hr
      rcases List.mem_map.mp hr with ⟨c, _, hc⟩
      rcases firstHitRank_sorted_cases c.flatten θ with h | h
      · rw [← hc, h]
      · rw [← hc, h]
        rfl
    rw [hfilter]

/-!
Claim C3 — scan order of the ICD-10 family.
-/

/-- The raw per-position test of one ICD-10 sub-strategy (the body of the
corresponding scan loop in `_evaluate_icd10_match`). -/
def strategyApplies (tax : Icd10Taxonomy) (gdxCode : String) :
    Icd10Strategy → Dx → Bool
  | .exact, d => d.codes.icd10.contains gdxCode
  | .child, d => d.codes.icd10.any fun c => isChildCode tax gdxCode c
  | .parent, d => d.codes.icd10.any fun c => isParentCode tax gdxCode c
  | .sibling, d => d.codes.icd10.any fun c => isSiblingCode tax gdxCode c

/-- Whether a sub-strategy is enabled by the configuration (EXACT and CHILD are
unconditional; PARENT and SIBLING are flag-guarded). -/
def strategyEnabled (cfg : Config) : Icd10Strategy → Bool
  | .exact => true
  | .child => true
  | .parent => cfg.enableIcd10ParentSearch
  | .sibling => cfg.enableIcd10SiblingSearch

/-- Source order of the sub-strategies. -/
def strategyRank : Icd10Strategy → Nat
  | .exact => 0
  | .child => 1
  | .parent => 2
  | .sibling => 3

theorem strategyRank_injective (s s' : Icd10Strategy)
    (h : strategyRank s = strategyRank s') : s = s' := by
  cases s <;> cases s' <;> first | rfl | (exact absurd h (by decide))

theorem scanPositions_some (p : Dx → Bool) :
    ∀ (l : List Dx) (i j : Nat), scanPositions p i l = some j →
      ∃ k, ∃ hk : k < l.length, j = i + k ∧ p (l.get ⟨k, hk⟩) = true ∧
        ∀ k', ∀ hk' : k' < l.length, k' < k → p (l.get ⟨k', hk'⟩) = false := by
  intro l
  induction l with
  | nil => intro i j h; cases h
  | cons d rest ih =>
    intro i j h
    unfold scanPositions at h
    split at h
    · rename_i hp
      injection h with h
      exact ⟨0, Nat.succ_pos _, by omega, hp, by intro k' hk' hc; omega⟩
    · rename_i hp
      obtain ⟨k, hk, hj, hpk, hmin⟩ := ih (i + 1) j h
      refine ⟨k + 1, Nat.succ_lt_succ hk, by omega, hpk, ?_⟩
      intro k' hk' hlt
      cases k' with
      | zero => simpa using hp
      | succ k'' => exact hmin k'' (Nat.lt_of_succ_lt_succ hk') (Nat.lt_of_succ_lt_succ hlt)

theorem scanPositions_none (p : Dx → Bool) :
    ∀ (l : List Dx) (i : Nat), scanPositions p i l = none →
      ∀ k, ∀ hk : k < l.length, p (l.get ⟨k, hk⟩) = false := by
  intro l
  induction l with
  | nil => intro i _ k hk; simp at hk
  | cons d rest ih =>
    intro i h k hk
    unfold scanPositions at h
    split at h
    · cases h
    · rename_i hp
      cases k with
      | zero => simpa using hp
      | succ k'' => exact ih (i + 1) h k'' (Nat.lt_of_succ_lt_succ hk)

theorem icd10CodeSearch_some (cfg : Config) (tax : Icd10Taxonomy) (gdxCode : String)
    (ddxList : List Dx) (s : Icd10Strategy) (pos : Nat)
    (h : icd10CodeSearch cfg tax gdxCode ddxList = some (s, pos)) :
    strategyEnabled cfg s = true ∧
    (∃ k, ∃ hk : k < ddxList.length, pos = 1 + k ∧
      strategyApplies tax gdxCode s (ddxList.get ⟨k, hk⟩) = true ∧
      ∀ k', ∀ hk' : k' < ddxList.length, k' < k →
        strategyApplies tax gdxCode s (ddxList.get ⟨k', hk'⟩) = false) ∧
    (∀ s' : Icd10Strategy, strategyRank s' < strategyRank s →
      strategyEnabled cfg s' = true →
      ∀ k', ∀ hk' : k' < ddxList.length,
        strategyApplies tax gdxCode s' (ddxList.get ⟨k', hk'⟩) = false) := by
  unfold icd10CodeSearch at h
  cases hx : scanPositions (fun d => d.codes.icd10.contains gdxCode) 1 ddxList with
  | some p =>
    rw [hx] at h
    simp only [Option.some.injEq, Prod.mk.injEq] at h
    obtain ⟨hs, hp⟩ := h
    subst hs
    subst hp
    refine ⟨rfl, ?_, ?_⟩
    · obtain ⟨k, hk, hj, hpk, hmin⟩ := scanPositions_some _ ddxList 1 p hx
      exact ⟨k, hk, hj, hpk, hmin⟩
    · intro s' hlt
      exact absurd hlt (Nat.not_lt_zero _)
  | none =>
    rw [hx] at h
    have hexact := scanPositions_none _ ddxList 1 hx
    cases hc : scanPositions
        (fun d => d.codes.icd10.any fun c => isChildCode tax gdxCode c) 1 ddxList with
    | some p =>
      rw [hc] at h
      simp only [Option.some.injEq, Prod.mk.injEq] at h
      obtain ⟨hs, hp⟩ := h
      subst hs
      subst hp
      refine ⟨rfl, ?_, ?_⟩
      · obtain ⟨k, hk, hj, hpk, hmin⟩ := scanPositions_some _ ddxList 1 p hc
        exact ⟨k, hk, hj, hpk, hmin⟩
      · intro s' hlt henb k' hk'
        cases s' with
        | exact => exact hexact k' hk'
        | child => simp [strategyRank] at hlt
        | parent => simp [strategyRank] at hlt
        | sibling => simp [strategyRank] at hlt
    | none =>
      rw [hc] at h
      have hchild := scanPositions_none _ ddxList 1 hc
      cases hpe : cfg.enableIcd10ParentSearch with
      | true =>
        rw [if_pos hpe] at h
        cases hp : scanPositions
            (fun d => d.codes.icd10.any fun c => isParentCode tax gdxCode c) 1 ddxList with
        | some p =>
          rw [hp] at h
          simp only [Option.some.injEq, Prod.mk.injEq] at h
          obtain ⟨hs, hpp⟩ := h
          subst hs
          subst hpp
          refine ⟨hpe, ?_, ?_⟩
          · obtain ⟨k, hk, hj, hpk, hmin⟩ := scanPositions_some _ ddxList 1 p hp
            exact ⟨k, hk, hj, hpk, hmin⟩
          · intro s' hlt henb k' hk'
            cases s' with
            | exact => exact hexact k' hk'
            | child => exact hchild k' hk'
            | parent => simp [strategyRank] at hlt
            | sibling => simp [strategyRank] at hlt
        | none =>
          rw [hp] at h
          have hparent := scanPositions_none _ ddxList 1 hp
          cases hse : cfg.enableIcd10SiblingSearch with
          | true =>
            rw [if_pos hse] at h
            cases hs2 : scanPositions
                (fun d => d.codes.icd10.any fun c => isSiblingCode tax gdxCode c) 1 ddxList with
            | some p =>
              rw [hs2] at h
              simp only [Option.some.injEq, Prod.mk.injEq] at h
              obtain ⟨hs, hpp⟩ := h
              subst hs
              subst hpp
              refine ⟨hse, ?_, ?_⟩
              · obtain ⟨k, hk, hj, hpk, hmin⟩ := scanPositions_some _ ddxList 1 p hs2
                exact ⟨k, hk, hj, hpk, hmin⟩
              · intro s' hlt henb k' hk'
                cases s' with
                | exact => exact hexact k' hk'
                | child => exact hchild k' hk'
                | parent => exact hparent k' hk'
                | sibling => simp [strategyRank] at hlt
            | none =>
              rw [hs2] at h
              simp at h
          | false =>
            rw [if_neg (by simp [hse])] at h
            simp at h
      | false =>
        rw [if_neg (by simp [hpe])] at h
        cases hse : cfg.enableIcd10SiblingSearch with
        | true =>
          rw [if_pos hse] at h
          cases hs2 : scanPositions
              (fun d => d.codes.icd10.any fun c => isSiblingCode tax gdxCode c) 1 ddxList with
          | some p =>
            rw [hs2] at h
            simp only [Option.some.injEq, Prod.mk.injEq] at h
            obtain ⟨hs, hpp⟩ := h
            subst hs
            subst hpp
            refine ⟨hse, ?_, ?_⟩
            · obtain ⟨k, hk, hj, hpk, hmin⟩ := scanPositions_some _ ddxList 1 p hs2
              exact ⟨k, hk, hj, hpk, hmin⟩
            · intro s' hlt henb k' hk'
              cases s' with
              | exact => exact hexact k' hk'
              | child => exact hchild k' hk'
              | parent => exact absurd henb (by simp [strategyEnabled, hpe])
              | sibling => simp [strategyRank] at hlt
          | none =>
            rw [hs2] at h
            simp at h
        | false =>
          rw [if_neg (by simp [hse])] at h
          simp at h

theorem icd10CodeSearch_none (cfg : Config) (tax : Icd10Taxonomy) (gdxCode : String)
    (ddxList : List Dx)
    (h : icd10CodeSearch cfg tax gdxCode ddxList = none) :
    ∀ s : Icd10Strategy, strategyEnabled cfg s = true →
      ∀ k, ∀ hk : k < ddxList.length,
        strategyApplies tax gdxCode s (ddxList.get ⟨k, hk⟩) = false := by
  unfold icd10CodeSearch at h
  cases hx : scanPositions (fun d => d.codes.icd10.contains gdxCode) 1 ddxList with
  | some p => rw [hx] at h; simp at h
  | none =>
    rw [hx] at h
    have hexact := scanPositions_none _ ddxList 1 hx
    cases hc : scanPositions
        (fun d => d.codes.icd10.any fun c => isChildCode tax gdxCode c) 1 ddxList with
    | some p => rw [hc] at h; simp at h
    | none =>
      rw [hc] at h
      have hchild := scanPositions_none _ ddxList 1 hc
      have hparent : ∀ (hpe : cfg.enableIcd10ParentSearch = true) (k : Nat)
          (hk : k < ddxList.length),
          strategyApplies tax gdxCode .parent (ddxList.get ⟨k, hk⟩) = false := by
        intro hpe
        rw [if_pos hpe] at h
        cases hp : scanPositions
            (fun d => d.codes.icd10.any fun c => isParentCode tax gdxCode c) 1 ddxList with
        | some p => rw [hp] at h; simp at h
        | none => exact scanPositions_none _ ddxList 1 hp
      have hsibling : ∀ (hse : cfg.enableIcd10SiblingSearch = true) (k : Nat)
          (hk : k < ddxList.length),
          strategyApplies tax gdxCode .sibling (ddxList.get ⟨k, hk⟩) = false := by
        intro hse
        cases hs2 : scanPositions
            (fun d => d.codes.icd10.any fun c => isSiblingCode tax gdxCode c) 1 ddxList with
        | some p =>
          exfalso
          cases hpe : cfg.enableIcd10ParentSearch with
          | true =>
            rw [if_pos hpe] at h
            cases hp : scanPositions
                (fun d => d.codes.icd10.any fun c => isParentCode tax gdxCode c) 1 ddxList with
            | some q => rw [hp] at h; simp at h
            | none => rw [hp, if_pos hse, hs2] at h; simp at h
          | false =>
            rw [if_neg (by simp [hpe]), if_pos hse, hs2] at h
            simp at h
        | none => exact scanPositions_none _ ddxList 1 hs2
      intro s henb k hk
      cases s with
      | exact => exact hexact k hk
      | child => exact hchild k hk
      | parent => exact hparent henb k hk
      | sibling => exact hsibling henb k hk

theorem icd10CodesLoop_some (cfg : Config) (tax : Icd10Taxonomy) (ddxList : List Dx) :
    ∀ (codes : List String) (c : String) (s : Icd10Strategy) (pos : Nat),
      icd10CodesLoop cfg tax ddxList codes = some (c, s, pos) →
      ∃ ci, ∃ hci : ci < codes.length, c = codes.get ⟨ci, hci⟩ ∧
        icd10CodeSearch cfg tax c ddxList = some (s, pos) ∧
        ∀ ci', ∀ hci' : ci' < codes.length, ci' < ci →
          icd10CodeSearch cfg tax (codes.get ⟨ci', hci'⟩) ddxList = none := by
  intro codes
  induction codes with
  | nil => intro c s pos h; cases h
  | cons c0 rest ih =>
    intro c s pos h
    unfold icd10CodesLoop at h
    cases hcs : icd10CodeSearch cfg tax c0 ddxList with
    | some sp =>
      obtain ⟨s0, p0⟩ := sp
      rw [hcs] at h
      simp only [Option.some.injEq, Prod.mk.injEq] at h
      obtain ⟨hc0, hs0, hp0⟩ := h
      subst hc0
      subst hs0
      subst hp0
      exact ⟨0, Nat.succ_pos _, rfl, hcs, by intro ci' hci' hlt; omega⟩
    | none =>
      rw [hcs] at h
      obtain ⟨ci, hci, hc, hsearch, hmin⟩ := ih c s pos h
      refine ⟨ci + 1, Nat.succ_lt_succ hci, hc, hsearch, ?_⟩
      intro ci' hci' hlt
      cases ci' with
      | zero => exact hcs
      | succ ci'' => exact hmin ci'' (Nat.lt_of_succ_lt_succ hci') (Nat.lt_of_succ_lt_succ hlt)

theorem icd10CodesLoop_none (cfg : Config) (tax : Icd10Taxonomy) (ddxList : List Dx) :
    ∀ codes : List String, icd10CodesLoop cfg tax ddxList codes = none →
      ∀ ci, ∀ hci : ci < codes.length,
        icd10CodeSearch cfg tax (codes.get ⟨ci, hci⟩) ddxList = none := by
  intro codes
  induction codes with
  | nil => intro _ ci hci; simp at hci
  | cons c0 rest ih =>
    intro h ci hci
    unfold icd10CodesLoop at h
    cases hcs : icd10CodeSearch cfg tax c0 ddxList with
    | some sp =>
      obtain ⟨s0, p0⟩ := sp
      rw [hcs] at h
      simp at h
    | none =>
      rw [hcs] at h
      cases ci with
      | zero => exact hcs
      | succ ci'' => exact ih h ci'' (Nat.lt_of_succ_lt_succ hci)

/-- Claim C3: in the ICD-10 family, a success is produced by an enabled
sub-strategy applying at the reported (1-based) position for the reported GDX
code, and the triple (GDX-code index, sub-strategy rank, DDX position) of the
returned match is lexicographically least among all triples at which an enabled
sub-strategy applies — GDX codes take precedence over sub-strategies (EXACT,
CHILD, PARENT, SIBLING in that order), which take precedence over DDX
positions, and within a sub-strategy the lowest matching DDX position wins; a
FAILED outcome means no enabled sub-strategy applies anywhere. -/
theorem c3_icd10_scan_order (cfg : Config) (tax : Icd10Taxonomy) (gdx : Dx)
    (ddxList : List Dx) :
    (∀ s pos code, evaluateIcd10Match cfg tax gdx ddxList = .success s pos code →
      strategyEnabled cfg s = true ∧
      ∃ ci, ∃ hci : ci < gdx.codes.icd10.length, code = gdx.codes.icd10.get ⟨ci, hci⟩ ∧
      ∃ k, ∃ hk : k < ddxList.length, pos = 1 + k ∧
        strategyApplies tax code s (ddxList.get ⟨k, hk⟩) = true ∧
        ∀ ci', ∀ hci' : ci' < gdx.codes.icd10.length, ∀ s' : Icd10Strategy,
          ∀ k', ∀ hk' : k' < ddxList.length,
          strategyEnabled cfg s' = true →
          strategyApplies tax (gdx.codes.icd10.get ⟨ci', hci'⟩) s'
            (ddxList.get ⟨k', hk'⟩) = true →
          ci < ci' ∨ ci = ci' ∧ (strategyRank s < strategyRank s' ∨
            (s = s' ∧ k ≤ k'))) ∧
    (evaluateIcd10Match cfg tax gdx ddxList = .failed →
      ∀ ci, ∀ hci : ci < gdx.codes.icd10.length, ∀ s : Icd10Strategy,
        ∀ k, ∀ hk : k < ddxList.length,
        strategyEnabled cfg s = true →
        strategyApplies tax (gdx.codes.icd10.get ⟨ci, hci⟩) s
          (ddxList.get ⟨k, hk⟩) = false) := by
  constructor
  · intro s pos code hs
    unfold evaluateIcd10Match at hs
    split at hs
    · simp at hs
    · cases hl : icd10CodesLoop cfg tax ddxList gdx.codes.icd10 with
      | none =>
        rw [hl] at hs
        simp at hs
      | some t =>
        obtain ⟨c0, s0, p0⟩ := t
        rw [hl] at hs
        simp only [Icd10Check.success.injEq] at hs
        obtain ⟨hs0, hp0, hc0⟩ := hs
        subst hs0
        subst hp0
        subst hc0
        obtain ⟨ci, hci, hc, hsearch, hminc⟩ :=
          icd10CodesLoop_some cfg tax ddxList gdx.codes.icd10 c0 s0 p0 hl
        obtain ⟨henb, ⟨k, hk, hpos, happ, hminpos⟩, hminstrat⟩ :=
          icd10CodeSearch_some cfg tax c0 ddxList s0 p0 hsearch
        refine ⟨henb, ci, hci, hc, k, hk, hpos, happ, ?_⟩
        intro ci' hci' s' k' hk' henb' happ'
        rcases Nat.lt_trichotomy ci ci' with h1 | h1 | h1
        · exact Or.inl h1
        · subst h1
          have hget : gdx.codes.icd10.get ⟨ci, hci'⟩ = c0 := by
            rw [hc]
          rw [hget] at happ'
          refine Or.inr ⟨rfl, ?_⟩
          rcases Nat.lt_trichotomy (strategyRank s0) (strategyRank s') with h2 | h2 | h2
          · exact Or.inl h2
          · have hss : s0 = s' := strategyRank_injective s0 s' h2
            subst hss
            refine Or.inr ⟨rfl, ?_⟩
            by_contra hcon
            push_neg at hcon
            rw [hminpos k' hk' hcon] at happ'
            cases happ'
          · rw [hminstrat s' h2 henb' k' hk'] at happ'
            cases happ'
        · rw [icd10CodeSearch_none cfg tax _ ddxList (hminc ci' hci' h1) s' henb' k' hk']
            at happ'
          cases happ'
  · intro hs ci hci s k hk henb
    unfold evaluateIcd10Match at hs
    split at hs
    · simp at hs
    · cases hl : icd10CodesLoop cfg tax ddxList gdx.codes.icd10 with
      | some t =>
        obtain ⟨c0, s0, p0⟩ := t
        rw [hl] at hs
        simp at hs
      | none =>
        exact icd10CodeSearch_none cfg tax _ ddxList
          (icd10CodesLoop_none cfg tax ddxList gdx.codes.icd10 hl ci hci) s henb k hk

/-- Witness for claim C3: a concrete ICD-10 exact success at position 1 for the
first (and only) GDX code. -/
theorem c3_witness :
    strategyEnabled defaultConfig .exact = true ∧
    (∃ ci, ∃ hci : ci < (gdxIc.codes.icd10).length,
      "X" = gdxIc.codes.icd10.get ⟨ci, hci⟩ ∧
    ∃ k, ∃ hk : k < ([ddxIc] : List Dx).length, 1 = 1 + k ∧
      strategyApplies taxEmpty "X" .exact (([ddxIc] : List Dx).get ⟨k, hk⟩) = true ∧
      ∀ ci', ∀ hci' : ci' < (gdxIc.codes.icd10).length, ∀ s' : Icd10Strategy,
        ∀ k', ∀ hk' : k' < ([ddxIc] : List Dx).length,
        strategyEnabled defaultConfig s' = true →
        strategyApplies taxEmpty (gdxIc.codes.icd10.get ⟨ci', hci'⟩) s'
          (([ddxIc] : List Dx).get ⟨k', hk'⟩) = true →
        ci < ci' ∨ ci = ci' ∧ (strategyRank .exact < strategyRank s' ∨
          (Icd10Strategy.exact = s' ∧ k ≤ k'))) :=
  (c3_icd10_scan_order defaultConfig taxEmpty gdxIc [ddxIc]).1 .exact 1 "X" (by decide)

/-!
Claims C7 and C10 — the GDX loop of `evaluate_case`: running-best semantics and
position validity.
-/

theorem snomedScan_bound (gdxCodes : List String) :
    ∀ (l : List Dx) (i p : Nat) (c : String),
      snomedScan gdxCodes i l = some (p, c) → i ≤ p ∧ p < i + l.length := by
  intro l
  induction l with
  | nil => intro i p c h; cases h
  | cons d rest ih =>
    intro i p c h
    unfold snomedScan at h
    split at h
    · simp only [Option.some.injEq, Prod.mk.injEq] at h
      obtain ⟨hp, _⟩ := h
      subst hp
      simp
    · obtain ⟨h1, h2⟩ := ih (i + 1) p c h
      constructor
      · omega
      · simp only [List.length_cons]
        omega

theorem evaluateSnomedMatch_bound (gdx : Dx) (ddxList : List Dx) (p : Nat) (c : String)
    (h : evaluateSnomedMatch gdx ddxList = .success p c) :
    1 ≤ p ∧ p ≤ ddxList.length := by
  unfold evaluateSnomedMatch at h
  split at h
  · simp at h
  · cases hscan : snomedScan gdx.codes.snomed 1 ddxList with
    | some pc =>
      obtain ⟨p0, c0⟩ := pc
      rw [hscan] at h
      simp only [SnomedCheck.success.injEq] at h
      obtain ⟨hp, _⟩ := h
      subst hp
      have := snomedScan_bound gdx.codes.snomed ddxList 1 p0 c0 hscan
      omega
    | none =>
      rw [hscan] at h
      simp at h

theorem evaluateIcd10Match_bound (cfg : Config) (tax : Icd10Taxonomy) (gdx : Dx)
    (ddxList : List Dx) (s : Icd10Strategy) (p : Nat) (c : String)
    (h : evaluateIcd10Match cfg tax gdx ddxList = .success s p c) :
    1 ≤ p ∧ p ≤ ddxList.length := by
  unfold evaluateIcd10Match at h
  split at h
  · simp at h
  · cases hl : icd10CodesLoop cfg tax ddxList gdx.codes.icd10 with
    | some t =>
      obtain ⟨c0, s0, p0⟩ := t
      rw [hl] at h
      simp only [Icd10Check.success.injEq] at h
      obtain ⟨_, hp, _⟩ := h
      subst hp
      obtain ⟨ci, hci, _, hsearch, _⟩ :=
        icd10CodesLoop_some cfg tax ddxList gdx.codes.icd10 c0 s0 p0 hl
      obtain ⟨_, ⟨k, hk, hpos, _, _⟩, _⟩ :=
        icd10CodeSearch_some cfg tax c0 ddxList s0 p0 hsearch
      omega
    | none =>
      rw [hl] at h
      simp at h

theorem bertScanGo_none_zero (sim : String → String → Option ℚ) (gdxText : String) :
    ∀ (ts : List String) (i : Nat) (acc : List (Nat × ℚ)) (best : ℚ) (bp : Option Nat),
      (bp = none → best = 0) →
      (bertScanGo sim gdxText ts i acc best bp).2.2 = none →
      (bertScanGo sim gdxText ts i acc best bp).2.1 = 0 := by
  intro ts
  induction ts with
  | nil => intro i acc best bp hinv h; exact hinv h
  | cons t rest ih =>
    intro i acc best bp hinv
    unfold bertScanGo
    cases sim gdxText t with
    | none => exact ih (i + 1) acc best bp hinv
    | some s =>
      dsimp only
      split
      · exact ih (i + 1) (acc ++ [(i, s)]) s (some i) (by intro hc; cases hc)
      · exact ih (i + 1) (acc ++ [(i, s)]) best bp hinv

theorem bertScan_none_zero (sim : String → String → Option ℚ) (gdxText : String)
    (ddxTexts : List String) (h : (bertScan sim gdxText ddxTexts).2.2 = none) :
    (bertScan sim gdxText ddxTexts).2.1 = 0 :=
  bertScanGo_none_zero sim gdxText ddxTexts 1 [] 0 none (fun _ => rfl) h

theorem bertScanGo_pos_bound (sim : String → String → Option ℚ) (gdxText : String) :
    ∀ (ts : List String) (i : Nat) (acc : List (Nat × ℚ)) (best : ℚ) (bp : Option Nat),
      (∀ p, bp = some p → 1 ≤ p ∧ p < i) → 1 ≤ i →
      ∀ p, (bertScanGo sim gdxText ts i acc best bp).2.2 = some p →
        1 ≤ p ∧ p < i + ts.length := by
  intro ts
  induction ts with
  | nil =>
    intro i acc best bp hinv hi p h
    obtain ⟨h1, h2⟩ := hinv p h
    simp only [List.length_nil]
    omega
  | cons t rest ih =>
    intro i acc best bp hinv hi p
    unfold bertScanGo
    cases sim gdxText t with
    | none =>
      intro h
      obtain ⟨h1, h2⟩ := ih (i + 1) acc best bp
        (fun q hq => by obtain ⟨ha, hb⟩ := hinv q hq; omega) (by omega) p h
      simp only [List.length_cons]
      omega
    | some s =>
      dsimp only
      split
      · intro h
        obtain ⟨h1, h2⟩ := ih (i + 1) (acc ++ [(i, s)]) s (some i)
          (by intro q hq; injection hq with hq; omega) (by omega) p h
        simp only [List.length_cons]
        omega
      · intro h
        obtain ⟨h1, h2⟩ := ih (i + 1) (acc ++ [(i, s)]) best bp
          (fun q hq => by obtain ⟨ha, hb⟩ := hinv q hq; omega) (by omega) p h
        simp only [List.length_cons]
        omega

theorem bertScan_pos_bound (sim : String → String → Option ℚ) (gdxText : String)
    (ddxTexts : List String) (p : Nat)
    (h : (bertScan sim gdxText ddxTexts).2.2 = some p) :
    1 ≤ p ∧ p ≤ ddxTexts.length := by
  have := bertScanGo_pos_bound sim gdxText ddxTexts 1 [] 0 none
    (by intro q hq; cases hq) (le_refl 1) p h
  omega

theorem getLlmJudgment_bound (judge : String → List (Nat × String) → Option ℤ)
    (gdxText : String) (ddxTexts : List String) (p : Nat)
    (h : getLlmJudgment judge gdxText ddxTexts = some p) : 1 ≤ p ∧ p ≤ 5 := by
  unfold getLlmJudgment at h
  cases hjj : judge gdxText (llmCandidates ddxTexts) with
  | none => rw [hjj] at h; cases h
  | some n =>
    rw [hjj] at h
    simp only [] at h
    split at h
    · rename_i hc
      injection h with h
      omega
    · cases h

theorem semanticOutcome_bounds (cfg : Config) (sim : String → String → Option ℚ)
    (judge : String → List (Nat × String) → Option ℤ) (gdx : Dx) (ddxList : List Dx)
    (hauto : 0 < cfg.bertAutoconfirmThreshold) (po : Option Nat) (m : Method)
    (h : semanticOutcome (evaluateSemanticMatch cfg sim judge gdx ddxList) = some (po, m)) :
    ∃ p, po = some p ∧ 1 ≤ p ∧ (m = .LLM_JUDGMENT → p ≤ 5) ∧
      (m ≠ .LLM_JUDGMENT → p ≤ ddxList.length) := by
  unfold evaluateSemanticMatch at h
  dsimp only at h
  split at h
  · rename_i hcond
    cases hbp : (bertScan sim (textOf gdx) (List.map textOf ddxList)).2.2 with
    | none =>
      exfalso
      have hz := bertScan_none_zero sim (textOf gdx) (List.map textOf ddxList) hbp
      rw [hz] at hcond
      linarith
    | some p =>
      rw [hbp] at h
      simp only [Option.map_some, semanticOutcome, Option.some.injEq, Prod.mk.injEq] at h
      obtain ⟨hpo, hm⟩ := h
      subst hm
      obtain ⟨h1, h2⟩ :=
        bertScan_pos_bound sim (textOf gdx) (List.map textOf ddxList) p hbp
      exact ⟨p, hpo.symm, h1, fun hc => absurd hc (by decide),
        fun _ => by simpa using h2⟩
  · cases hj : getLlmJudgment judge (textOf gdx) (List.map textOf ddxList) with
    | some jp =>
      rw [hj] at h
      obtain ⟨hj1, hj5⟩ :=
        getLlmJudgment_bound judge (textOf gdx) (List.map textOf ddxList) jp hj
      dsimp only at h
      split at h
      · cases hbp : (bertScan sim (textOf gdx) (List.map textOf ddxList)).2.2 with
        | none =>
          rw [hbp] at h
          simp [semanticOutcome] at h
        | some bp =>
          rw [hbp] at h
          obtain ⟨hb1, hb2⟩ :=
            bertScan_pos_bound sim (textOf gdx) (List.map textOf ddxList) bp hbp
          dsimp only at h
          split at h
          · simp only [semanticOutcome, Option.some.injEq, Prod.mk.injEq] at h
            obtain ⟨hpo, hm⟩ := h
            subst hm
            exact ⟨bp, hpo.symm, hb1, fun hc => absurd hc (by decide),
              fun _ => by simpa using hb2⟩
          · simp only [semanticOutcome, Option.some.injEq, Prod.mk.injEq] at h
            obtain ⟨hpo, hm⟩ := h
            subst hm
            exact ⟨jp, hpo.symm, hj1, fun _ => hj5, fun hc => absurd rfl hc⟩
      · simp only [semanticOutcome, Option.some.injEq, Prod.mk.injEq] at h
        obtain ⟨hpo, hm⟩ := h
        subst hm
        exact ⟨jp, hpo.symm, hj1, fun _ => hj5, fun hc => absurd rfl hc⟩
    | none =>
      rw [hj] at h
      simp [semanticOutcome] at h

theorem traceOutcome_bounds (cfg : Config) (tax : Icd10Taxonomy)
    (sim : String → String → Option ℚ)
    (judge : String → List (Nat × String) → Option ℤ) (gdx : Dx) (ddxList : List Dx)
    (hauto : 0 < cfg.bertAutoconfirmThreshold) (po : Option Nat) (m : Method)
    (h : traceOutcome (evaluateSingleGdxWithTrace cfg tax sim judge gdx ddxList) =
      some (po, m)) :
    ∃ p, po = some p ∧ 1 ≤ p ∧ (m = .LLM_JUDGMENT → p ≤ 5) ∧
      (m ≠ .LLM_JUDGMENT → p ≤ ddxList.length) := by
  unfold evaluateSingleGdxWithTrace at h
  cases hsn : evaluateSnomedMatch gdx ddxList with
  | success p c =>
    rw [hsn] at h
    simp only [traceOutcome, Option.some.injEq, Prod.mk.injEq] at h
    obtain ⟨hpo, hm⟩ := h
    subst hm
    obtain ⟨h1, h2⟩ := evaluateSnomedMatch_bound gdx ddxList p c hsn
    exact ⟨p, hpo.symm, h1, fun hc => absurd hc (by decide), fun _ => h2⟩
  | skipped =>
    rw [hsn] at h
    dsimp only at h
    cases hic : evaluateIcd10Match cfg tax gdx ddxList with
    | success s p c =>
      rw [hic] at h
      simp only [traceOutcome, Option.some.injEq, Prod.mk.injEq] at h
      obtain ⟨hpo, hm⟩ := h
      subst hm
      obtain ⟨h1, h2⟩ := evaluateIcd10Match_bound cfg tax gdx ddxList s p c hic
      refine ⟨p, hpo.symm, h1, ?_, fun _ => h2⟩
      intro hc
      cases s <;> exact absurd hc (by decide)
    | skipped =>
      rw [hic] at h
      simp only [traceOutcome] at h
      exact semanticOutcome_bounds cfg sim judge gdx ddxList hauto po m h
    | failed =>
      rw [hic] at h
      simp only [traceOutcome] at h
      exact semanticOutcome_bounds cfg sim judge gdx ddxList hauto po m h
  | failed =>
    rw [hsn] at h
    dsimp only at h
    cases hic : evaluateIcd10Match cfg tax gdx ddxList with
    | success s p c =>
      rw [hic] at h
      simp only [traceOutcome, Option.some.injEq, Prod.mk.injEq] at h
      obtain ⟨hpo, hm⟩ := h
      subst hm
      obtain ⟨h1, h2⟩ := evaluateIcd10Match_bound cfg tax gdx ddxList s p c hic
      refine ⟨p, hpo.symm, h1, ?_, fun _ => h2⟩
      intro hc
      cases s <;> exact absurd hc (by decide)
    | skipped =>
      rw [hic] at h
      simp only [traceOutcome] at h
      exact semanticOutcome_bounds cfg sim judge gdx ddxList hauto po m h
    | failed =>
      rw [hic] at h
      simp only [traceOutcome] at h
      exact semanticOutcome_bounds cfg sim judge gdx ddxList hauto po m h

/-- The successful GDX outcomes of a case, in GDX order: one entry
`(gdx index, extracted position, method, gdx)` per GDX whose trace outcome is a
success with an extractable position. -/
def successEntries (cfg : Config) (tax : Icd10Taxonomy)
    (sim : String → String → Option ℚ) (judge : String → List (Nat × String) → Option ℤ)
    (ddxList : List Dx) : Nat → List Dx → List (Nat × Nat × Method × Dx)
  | _, [] => []
  | i, g :: rest =>
    (match traceOutcome (evaluateSingleGdxWithTrace cfg tax sim judge g ddxList) with
     | some (some p, m) => [(i, p, m, g)]
     | _ => []) ++ successEntries cfg tax sim judge ddxList (i + 1) rest

theorem evaluateCaseGo_spec (cfg : Config) (tax : Icd10Taxonomy)
    (sim : String → String → Option ℚ) (judge : String → List (Nat × String) → Option ℤ)
    (ddxList : List Dx) (hauto : 0 < cfg.bertAutoconfirmThreshold) :
    ∀ (rest : List Dx) (i : Nat) (bcur : Option BestMatch),
      (∀ b0, bcur = some b0 → b0.gdxIdx < i ∧
        b0.matchedDdx = getDdxAtPosition ddxList b0.position) →
      ∃ r, evaluateCaseGo cfg tax sim judge ddxList i rest bcur = some r ∧
        (r = none → bcur = none ∧
          successEntries cfg tax sim judge ddxList i rest = []) ∧
        (∀ b, r = some b →
          (bcur = some b ∨
            (b.gdxIdx, b.position, b.method, b.gdx) ∈
              successEntries cfg tax sim judge ddxList i rest) ∧
          b.matchedDdx = getDdxAtPosition ddxList b.position ∧
          (∀ q ∈ successEntries cfg tax sim judge ddxList i rest,
            b.position < q.2.1 ∨ (b.position = q.2.1 ∧ b.gdxIdx ≤ q.1)) ∧
          (∀ b0, bcur = some b0 →
            b.position < b0.position ∨
              (b.position = b0.position ∧ b.gdxIdx ≤ b0.gdxIdx))) := by
  intro rest
  induction rest with
  | nil =>
    intro i bcur hb
    refine ⟨bcur, rfl, ?_, ?_⟩
    · intro hr
      exact ⟨hr, rfl⟩
    · intro b hrb
      refine ⟨Or.inl hrb, (hb b hrb).2, ?_, ?_⟩
      · intro q hq
        simp [successEntries] at hq
      · intro b0 hb0
        rw [hrb] at hb0
        injection hb0 with hb0
        subst hb0
        exact Or.inr ⟨rfl, le_refl _⟩
  | cons g rest ih =>
    intro i bcur hb
    cases ho : traceOutcome (evaluateSingleGdxWithTrace cfg tax sim judge g ddxList) with
    | none =>
      have hstep : evaluateCaseGo cfg tax sim judge ddxList i (g :: rest) bcur =
          evaluateCaseGo cfg tax sim judge ddxList (i + 1) rest bcur := by
        rw [evaluateCaseGo, ho]
      have hent : successEntries cfg tax sim judge ddxList i (g :: rest) =
          successEntries cfg tax sim judge ddxList (i + 1) rest := by
        rw [successEntries, ho]
        simp
      obtain ⟨r, hr, hclauses⟩ := ih (i + 1) bcur
        (fun b0 hb0 => ⟨Nat.lt_succ_of_lt (hb b0 hb0).1, (hb b0 hb0).2⟩)
      refine ⟨r, by rw [hstep]; exact hr, ?_, ?_⟩
      · intro hrn
        obtain ⟨h1, h2⟩ := hclauses.1 hrn
        exact ⟨h1, by rw [hent]; exact h2⟩
      · intro b hrb
        obtain ⟨hprov, hddx, hmin, hdom⟩ := hclauses.2 b hrb
        refine ⟨?_, hddx, ?_, hdom⟩
        · rcases hprov with h | h
          · exact Or.inl h
          · right
            rw [hent]
            exact h
        · intro q hq
          rw [hent] at hq
          exact hmin q hq
    | some pm =>
      obtain ⟨po, m⟩ := pm
      obtain ⟨p, hpeq, hp1, hpllm, hpnot⟩ :=
        traceOutcome_bounds cfg tax sim judge g ddxList hauto po m ho
      subst hpeq
      have hent : successEntries cfg tax sim judge ddxList i (g :: rest) =
          (i, p, m, g) :: successEntries cfg tax sim judge ddxList (i + 1) rest := by
        rw [successEntries, ho]
        simp
      cases hbc : bcur with
      | none =>
        have hstep : evaluateCaseGo cfg tax sim judge ddxList i (g :: rest) none =
            evaluateCaseGo cfg tax sim judge ddxList (i + 1) rest
              (some ⟨p, m, i, g, getDdxAtPosition ddxList p⟩) := by
          rw [evaluateCaseGo, ho]
        obtain ⟨r, hr, hclauses⟩ := ih (i + 1)
          (some ⟨p, m, i, g, getDdxAtPosition ddxList p⟩)
          (by
            intro b0 hb0
            injection hb0 with hb0
            subst hb0
            exact ⟨Nat.lt_succ_self i, rfl⟩)
        refine ⟨r, by rw [hstep]; exact hr, ?_, ?_⟩
        · intro hrn
          obtain ⟨h1, _⟩ := hclauses.1 hrn
          exact absurd h1 (by simp)
        · intro b hrb
          obtain ⟨hprov, hddx, hmin, hdom⟩ := hclauses.2 b hrb
          have hdomnew := hdom ⟨p, m, i, g, getDdxAtPosition ddxList p⟩ rfl
          refine ⟨?_, hddx, ?_, ?_⟩
          · right
            rw [hent]
            rcases hprov with h | h
            · injection h with h
              subst h
              exact List.mem_cons_self _ _
            · exact List.mem_cons_of_mem _ h
          · intro q hq
            rw [hent] at hq
            rcases List.mem_cons.mp hq with hq | hq
            · subst hq
              exact hdomnew
            · exact hmin q hq
          · intro b0 hb0
            exact absurd hb0 (by simp)
      | some b0 =>
        have hb0 := hb b0 hbc
        by_cases hcmp : p < b0.position
        · have hstep : evaluateCaseGo cfg tax sim judge ddxList i (g :: rest) (some b0) =
              evaluateCaseGo cfg tax sim judge ddxList (i + 1) rest
                (some ⟨p, m, i, g, getDdxAtPosition ddxList p⟩) := by
            rw [evaluateCaseGo, ho]
            simp [hcmp]
          obtain ⟨r, hr, hclauses⟩ := ih (i + 1)
            (some ⟨p, m, i, g, getDdxAtPosition ddxList p⟩)
            (by
              intro bx hbx
              injection hbx with hbx
              subst hbx
              exact ⟨Nat.lt_succ_self i, rfl⟩)
          refine ⟨r, by rw [hstep]; exact hr, ?_, ?_⟩
          · intro hrn
            obtain ⟨h1, _⟩ := hclauses.1 hrn
            exact absurd h1 (by simp)
          · intro b hrb
            obtain ⟨hprov, hddx, hmin, hdom⟩ := hclauses.2 b hrb
            have hdomnew := hdom ⟨p, m, i, g, getDdxAtPosition ddxList p⟩ rfl
            refine ⟨?_, hddx, ?_, ?_⟩
            · right
              rw [hent]
              rcases hprov with h | h
              · injection h with h
                subst h
                exact List.mem_cons_self _ _
              · exact List.mem_cons_of_mem _ h
            · intro q hq
              rw [hent] at hq
              rcases List.mem_cons.mp hq with hq | hq
              · subst hq
                exact hdomnew
              · exact hmin q hq
            · intro b0' hb0'
              injection hb0' with hb0'
              subst hb0'
              rcases hdomnew with h | h
              · exact Or.inl (lt_trans h hcmp)
              · exact Or.inl (h.1 ▸ hcmp)
        · have hstep : evaluateCaseGo cfg tax sim judge ddxList i (g :: rest) (some b0) =
              evaluateCaseGo cfg tax sim judge ddxList (i + 1) rest (some b0) := by
            rw [evaluateCaseGo, ho]
            simp [hcmp]
          obtain ⟨r, hr, hclauses⟩ := ih (i + 1) (some b0)
            (by
              intro bx hbx
              injection hbx with hbx
              subst hbx
              exact ⟨Nat.lt_succ_of_lt hb0.1, hb0.2⟩)
          refine ⟨r, by rw [hstep]; exact hr, ?_, ?_⟩
          · intro hrn
            obtain ⟨h1, _⟩ := hclauses.1 hrn
            exact absurd h1 (by simp)
          · intro b hrb
            obtain ⟨hprov, hddx, hmin, hdom⟩ := hclauses.2 b hrb
            have hdomold := hdom b0 rfl
            push_neg at hcmp
            refine ⟨?_, hddx, ?_, ?_⟩
            · rcases hprov with h | h
              · exact Or.inl h
              · right
                rw [hent]
                exact List.mem_cons_of_mem _ h
            · intro q hq
              rw [hent] at hq
              rcases List.mem_cons.mp hq with hq | hq
              · subst hq
                rcases hdomold with h | h
                · exact Or.inl (lt_of_lt_of_le h hcmp)
                · rcases lt_or_eq_of_le hcmp with hlt | heq2
                  · exact Or.inl (h.1 ▸ hlt)
                  · exact Or.inr ⟨h.1.trans heq2, le_of_lt (lt_of_le_of_lt h.2 hb0.1)⟩
              · exact hmin q hq
            · intro b0' hb0'
              injection hb0' with hb0'
              subst hb0'
              exact hdomold

theorem successEntries_mem (cfg : Config) (tax : Icd10Taxonomy)
    (sim : String → String → Option ℚ) (judge : String → List (Nat × String) → Option ℤ)
    (ddxList : List Dx) :
    ∀ (rest : List Dx) (j : Nat) (e : Nat × Nat × Method × Dx),
      e ∈ successEntries cfg tax sim judge ddxList j rest →
      traceOutcome (evaluateSingleGdxWithTrace cfg tax sim judge e.2.2.2 ddxList) =
        some (some e.2.1, e.2.2.1) := by
  intro rest
  induction rest with
  | nil =>
    intro j e he
    simp [successEntries] at he
  | cons g rest ih =>
    intro j e he
    rw [successEntries] at he
    rcases List.mem_append.mp he with h | h
    · cases ho : traceOutcome (evaluateSingleGdxWithTrace cfg tax sim judge g ddxList) with
      | none =>
        rw [ho] at h
        simp at h
      | some pm =>
        obtain ⟨po, m⟩ := pm
        cases po with
        | none =>
          rw [ho] at h
          simp at h
        | some p =>
          rw [ho] at h
          simp at h
          subst h
          exact ho
    · exact ih (j + 1) e h

theorem getDdxAtPosition_isSome (ddxList : List Dx) (p : Nat) (h1 : 1 ≤ p)
    (h2 : p ≤ ddxList.length) : (getDdxAtPosition ddxList p).isSome := by
  unfold getDdxAtPosition
  rw [if_pos ⟨h1, h2⟩]
  have hlt : p - 1 < ddxList.length := by omega
  rw [List.get?_eq_get hlt]
  rfl

/-- Claim C7: `evaluate_case` iterates the GDX entries in declared order with a
running best that a later SUCCESS replaces only at a strictly lower matched
position — on equal positions the earlier GDX's result is kept — and when no
GDX produces a SUCCESS the case resolves as no-match (`best_match_found`
false).  Stated for any configuration with a positive autoconfirm threshold
(then every SUCCESS carries an extractable position, so the loop cannot hit
the `None < int` comparison): the loop completes with a result that is empty
exactly when no GDX succeeded, and otherwise is one of the successful GDX
outcomes, attaining the minimum matched position over all of them with the
least GDX index among those attaining it. -/
theorem c7_running_best_min_position (cfg : Config) (tax : Icd10Taxonomy)
    (sim : String → String → Option ℚ) (judge : String → List (Nat × String) → Option ℤ)
    (gdxList ddxList : List Dx) (hauto : 0 < cfg.bertAutoconfirmThreshold) :
    ∃ r, evaluateCase cfg tax sim judge gdxList ddxList = some r ∧
      (r = none ↔ successEntries cfg tax sim judge ddxList 1 gdxList = []) ∧
      (∀ b, r = some b →
        (b.gdxIdx, b.position, b.method, b.gdx) ∈
          successEntries cfg tax sim judge ddxList 1 gdxList ∧
        b.matchedDdx = getDdxAtPosition ddxList b.position ∧
        ∀ q ∈ successEntries cfg tax sim judge ddxList 1 gdxList,
          b.position < q.2.1 ∨ (b.position = q.2.1 ∧ b.gdxIdx ≤ q.1)) := by
  obtain ⟨r, hr, h1, h2⟩ := evaluateCaseGo_spec cfg tax sim judge ddxList hauto gdxList 1 none
    (fun b0 hb0 => Option.noConfusion hb0)
  refine ⟨r, hr, ?_, ?_⟩
  · constructor
    · intro hrn
      exact (h1 hrn).2
    · intro he
      cases hrv : r with
      | none => rfl
      | some b =>
        obtain ⟨hprov, _, _, _⟩ := h2 b hrv
        rcases hprov with h | h
        · exact Option.noConfusion h
        · rw [he] at h
          simp at h
  · intro b hrb
    obtain ⟨hprov, hddx, hmin, _⟩ := h2 b hrb
    rcases hprov with h | h
    · exact Option.noConfusion h
    · exact ⟨h, hddx, hmin⟩

/-- Witness for claim C7 at a concrete input (the SNOMED pair, default
configuration, empty taxonomy, constant oracles). -/
theorem c7_witness :
    ∃ r, evaluateCase defaultConfig taxEmpty simHalf judgeTwo [gdxSn] [ddxSn] = some r ∧
      (r = none ↔ successEntries defaultConfig taxEmpty simHalf judgeTwo [ddxSn] 1 [gdxSn] = []) ∧
      (∀ b, r = some b →
        (b.gdxIdx, b.position, b.method, b.gdx) ∈
          successEntries defaultConfig taxEmpty simHalf judgeTwo [ddxSn] 1 [gdxSn] ∧
        b.matchedDdx = getDdxAtPosition [ddxSn] b.position ∧
        ∀ q ∈ successEntries defaultConfig taxEmpty simHalf judgeTwo [ddxSn] 1 [gdxSn],
          b.position < q.2.1 ∨ (b.position = q.2.1 ∧ b.gdxIdx ≤ q.1)) :=
  c7_running_best_min_position defaultConfig taxEmpty simHalf judgeTwo [gdxSn] [ddxSn]
    (by norm_num [defaultConfig])

/-- Claim C10, counterexample: with the default configuration, the empty
taxonomy, a uniform similarity `0.5` and a judge answering `2`, a case with one
codeless GDX and a single-entry DDX list resolves successfully by
`LLM_JUDGMENT` at reported position `2` — outside the 1-element DDX list — and
its `matched_ddx` is the empty lookup result, naming no DDX entry. -/
theorem c10_counterexample :
    evaluateCase defaultConfig taxEmpty simHalf judgeTwo [gPlain] [dPlain] =
      some (some ⟨2, .LLM_JUDGMENT, 1, gPlain, none⟩) ∧
    ([dPlain] : List Dx).length < 2 ∧
    getDdxAtPosition [dPlain] 2 = none := by
  refine ⟨?_, by decide, by decide⟩
  norm_num [evaluateCase, evaluateCaseGo, evaluateSingleGdxWithTrace,
    evaluateSnomedMatch, snomedScan, evaluateIcd10Match, icd10CodesLoop,
    icd10CodeSearch, scanPositions, evaluateSemanticMatch, bertScan, bertScanGo,
    getLlmJudgment, llmCandidates, textOf, traceOutcome, semanticOutcome,
    getDdxAtPosition, gPlain, dPlain, noCodes, simHalf, judgeTwo, taxEmpty,
    defaultConfig, Int.toNat]

/-- Claim C10, amended: for a configuration with a positive autoconfirm
threshold, every successful case resolution's matched position `p` satisfies
`1 ≤ p`, and `matched_ddx` is exactly the `_get_ddx_at_position` lookup at `p`;
when the winning method is not `LLM_JUDGMENT`, `p ≤ |ddx_list|` also holds and
`matched_ddx` names an actual DDX entry, but when the winning method is
`LLM_JUDGMENT` only `p ≤ 5` is guaranteed — `p` may exceed a shorter DDX list,
in which case `matched_ddx` is empty (see the counterexample). -/
theorem c10_position_validity (cfg : Config) (tax : Icd10Taxonomy)
    (sim : String → String → Option ℚ) (judge : String → List (Nat × String) → Option ℤ)
    (gdxList ddxList : List Dx) (hauto : 0 < cfg.bertAutoconfirmThreshold)
    (b : BestMatch)
    (hb : evaluateCase cfg tax sim judge gdxList ddxList = some (some b)) :
    1 ≤ b.position ∧
    b.matchedDdx = getDdxAtPosition ddxList b.position ∧
    (b.method = .LLM_JUDGMENT → b.position ≤ 5) ∧
    (b.method ≠ .LLM_JUDGMENT →
      b.position ≤ ddxList.length ∧ b.matchedDdx.isSome) := by
  obtain ⟨r, hr, _, h2⟩ := evaluateCaseGo_spec cfg tax sim judge ddxList hauto gdxList 1 none
    (fun b0 hb0 => Option.noConfusion hb0)
  have hr2 : some r = some (some b) := hr.symm.trans hb
  injection hr2 with hr2
  obtain ⟨hprov, hddx, _, _⟩ := h2 b hr2
  rcases hprov with h | h
  · exact Option.noConfusion h
  · have hto := successEntries_mem cfg tax sim judge ddxList gdxList 1 _ h
    obtain ⟨p, hpeq, hp1, hpllm, hpnot⟩ :=
      traceOutcome_bounds cfg tax sim judge b.gdx ddxList hauto (some b.position)
        b.method hto
    injection hpeq with hpeq
    refine ⟨?_, hddx, ?_, ?_⟩
    · rw [hpeq]
      exact hp1
    · intro hm
      rw [hpeq]
      exact hpllm hm
    · intro hm
      refine ⟨by rw [hpeq]; exact hpnot hm, ?_⟩
      rw [hddx, hpeq]
      exact getDdxAtPosition_isSome ddxList p hp1 (hpnot hm)

/-- Witness for the amended claim C10 at a concrete input (the SNOMED pair). -/
theorem c10_witness :
    1 ≤ (BestMatch.mk 1 .SNOMED_MATCH 1 gdxSn (some ddxSn)).position ∧
    (BestMatch.mk 1 .SNOMED_MATCH 1 gdxSn (some ddxSn)).matchedDdx =
      getDdxAtPosition [ddxSn] (BestMatch.mk 1 .SNOMED_MATCH 1 gdxSn (some ddxSn)).position ∧
    ((BestMatch.mk 1 .SNOMED_MATCH 1 gdxSn (some ddxSn)).method = .LLM_JUDGMENT →
      (BestMatch.mk 1 .SNOMED_MATCH 1 gdxSn (some ddxSn)).position ≤ 5) ∧
    ((BestMatch.mk 1 .SNOMED_MATCH 1 gdxSn (some ddxSn)).method ≠ .LLM_JUDGMENT →
      (BestMatch.mk 1 .SNOMED_MATCH 1 gdxSn (some ddxSn)).position ≤
        ([ddxSn] : List Dx).length ∧
      (BestMatch.mk 1 .SNOMED_MATCH 1 gdxSn (some ddxSn)).matchedDdx.isSome) :=
  c10_position_validity defaultConfig taxEmpty simHalf judgeTwo [gdxSn] [ddxSn]
    (by norm_num [defaultConfig]) (BestMatch.mk 1 .SNOMED_MATCH 1 gdxSn (some ddxSn))
    (by norm_num [evaluateCase, evaluateCaseGo, evaluateSingleGdxWithTrace,
      evaluateSnomedMatch, snomedScan, traceOutcome, getDdxAtPosition,
      gdxSn, ddxSn])

end DxBench
